import Mathlib

/-!
Shallow embedding of the `bottele` repository (files `bot.py` and `hotmail.py`).

Pure string manipulation is translated directly.  Library calls that reach
outside the program are abstracted as parameters:

* every HTTP request made through a `requests`/`curl_cffi` session consumes the
  next event of a `Trace` (a normal response, or an exception);
* the `re` regular-expression engine is a pair of oracle functions
  (`ReOracle.search` for `re.search` group 1, `ReOracle.findall` for
  `re.findall`), except for the trivial pattern `\d`, which is translated
  concretely as "contains a digit character";
* `datetime.now()` is an integer parameter `now` counted in seconds.

All definitions follow the Python control flow of the source.
-/

namespace Bottele

/-! ### Python string primitives -/

/-- Python `needle in hay` (substring containment). -/
def strContains (hay needle : String) : Bool :=
  decide (needle.data <:+: hay.data)

/-- Python `s.startswith(p)`. -/
def pyStartsWith (s p : String) : Bool :=
  p.data.isPrefixOf s.data

/-- Python `s.endswith(p)`. -/
def pyEndsWith (s p : String) : Bool :=
  decide (p.data <:+ s.data)

/-- Characters stripped by Python `str.strip()` with no argument. -/
def pyIsSpace (c : Char) : Bool :=
  c.isWhitespace || c = '\x0b' || c = '\x0c'

/-- Drop matching characters from both ends (Python `str.strip`). -/
def stripEnds (p : Char → Bool) (l : List Char) : List Char :=
  ((l.dropWhile p).reverse.dropWhile p).reverse

/-- Drop matching characters from the right end (Python `str.rstrip`). -/
def stripRight (p : Char → Bool) (l : List Char) : List Char :=
  (l.reverse.dropWhile p).reverse

/-- Python `s.strip()`. -/
def pyStrip (s : String) : String :=
  String.mk (stripEnds pyIsSpace s.data)

/-- Python `s.strip(chars)`. -/
def pyStripChars (cs : List Char) (s : String) : String :=
  String.mk (stripEnds (fun c => cs.contains c) s.data)

/-- `s.replace(a, b)` for single characters `a`, `b`. -/
def replaceChar (a b : Char) (l : List Char) : List Char :=
  l.map (fun c => if c = a then b else c)

/-- `re.search(r'\d', s)` is not None: `s` contains a decimal digit. -/
def hasDigit (s : String) : Bool :=
  s.data.any Char.isDigit

/-- Python `str.title()`: the first alphabetic character of each run is
uppercased, the following ones lowercased. -/
def pyTitleGo : Bool → List Char → List Char
  | _, [] => []
  | prev, c :: rest =>
    if c.isAlpha then
      (if prev then c.toLower else c.toUpper) :: pyTitleGo true rest
    else
      c :: pyTitleGo false rest

/-- Python `s.title()`. -/
def pyTitle (s : String) : String :=
  String.mk (pyTitleGo false s.data)

/-- Non-overlapping left-to-right occurrence count of a non-empty needle
(Python `str.count` for non-empty arguments).  The fuel argument only makes
the recursion structural; `fuel ≥ length of the list` never runs out for a
non-empty needle. -/
def countOccurAux (needle : List Char) : Nat → List Char → Nat
  | 0, _ => 0
  | _, [] => 0
  | fuel + 1, c :: rest =>
    if needle.isPrefixOf (c :: rest) then
      1 + countOccurAux needle fuel ((c :: rest).drop needle.length)
    else
      countOccurAux needle fuel rest

/-- Python `hay.count(needle)` (the sources only call it with non-empty
needles; the empty-needle convention follows CPython). -/
def pyCount (hay needle : String) : Nat :=
  match needle.data with
  | [] => hay.data.length + 1
  | _ => countOccurAux needle.data hay.data.length hay.data

/-- Python `s.split(sep)` for a single-character separator, on character
lists. -/
def pySplitCharAux (sep : Char) : List Char → List (List Char)
  | [] => [[]]
  | c :: rest =>
    if c = sep then [] :: pySplitCharAux sep rest
    else
      match pySplitCharAux sep rest with
      | [] => [[c]]
      | h :: t => (c :: h) :: t

/-- Python `s.split(sep)` (the sources only split on the single-character
separators `'\n'`, `'\t'`, `'.'` and `'/'`). -/
def pySplit (s : String) (sep : String) : List String :=
  match sep.data with
  | [s0] => (pySplitCharAux s0 s.data).map String.mk
  | _ => [s]

/-- Python `s.upper()` (ASCII). -/
def pyUpper (s : String) : String :=
  String.mk (s.data.map Char.toUpper)

/-- Python `s.lower()` (ASCII). -/
def pyLower (s : String) : String :=
  String.mk (s.data.map Char.toLower)

/-! ### `re` oracle

`search pat s` stands for `re.search(pat, s, flags)` returning group 1 of the
first match (`none` when there is no match); `findall pat s` stands for
`re.findall(pat, s, flags)` returning every group-1 capture in order. -/

structure ReOracle where
  search : String → String → Option String
  findall : String → String → List String

/-! ### bot.py: cookie parsing (`parse_cookies_txt`, lines 45-64) -/

structure Cookie where
  domain : String
  path : String
  secure : Bool
  expires : String
  name : String
  value : String
  deriving Repr, DecidableEq

/-- One pass of the loop body of `parse_cookies_txt` applied to the line `l`,
given the outcome of the remaining lines; a line whose tab-separated field
list has 8 or more entries makes the Python 7-way tuple unpacking raise
`ValueError`, modelled by `Except.error`. -/
def parseLineStep (l : String) (restRes : Except String (List Cookie)) :
    Except String (List Cookie) :=
  let line := pyStrip l
  if line == "" || pyStartsWith line "#" then restRes
  else
    let parts := pySplit line "\t"
    if parts.length < 7 then restRes
    else
      match parts with
      | [domain, _subdFlag, path, secureFlag, expires, name, value] =>
        restRes.map
          (fun cs =>
            { domain := domain, path := path,
              secure := pyUpper secureFlag == "TRUE",
              expires := expires, name := name, value := value } :: cs)
      | _ => .error "too many values to unpack (expected 7)"

def parseCookieLines : List String → Except String (List Cookie)
  | [] => .ok []
  | l :: rest => parseLineStep l (parseCookieLines rest)

def parse_cookies_txt (content : String) : Except String (List Cookie) :=
  parseCookieLines (pySplit (pyStrip content) "\n")

/-! ### bot.py: `filter_cookies_by_domain` (lines 66-73) -/

def cookieMatchesDomain (targetDomains : List String) (c : Cookie) : Bool :=
  targetDomains.any (fun t => c.domain == t || pyEndsWith c.domain t)

def filter_cookies_by_domain (cookies : List Cookie) (targetDomains : List String) :
    List Cookie :=
  cookies.filter (cookieMatchesDomain targetDomains)

/-! ### bot.py: status helpers (lines 75-106) -/

def get_status_icon (status : String) : String :=
  if status = "success" then "✅"
  else if status = "dead" then "❌"
  else ""

def get_status_text (status : String) : String :=
  if status = "success" then "Valid cookie."
  else if status = "dead" then "Invalid or expired cookie."
  else if status = "no_cookies" then "No cookies found for this service."
  else if status = "error" then "Error while checking cookie."
  else "Unknown cookie status."

/-! ### bot.py: `clean_filename` (lines 108-127) -/

def invalidFilenameChars : List Char :=
  ['<', '>', ':', '"', '/', '\\', '|', '?', '*', '\x00']

/-- `text = text.replace(char, '_')` for each entry of `invalid_chars`. -/
def replaceInvalid (l : List Char) : List Char :=
  invalidFilenameChars.foldl (fun acc ch => replaceChar ch '_' acc) l

/-- A character matched by `re.sub(r'[\x00-\x1f\x7f-\x9f]', '_', text)`. -/
def isCtrlChar (c : Char) : Bool :=
  c.toNat ≤ 0x1f || (0x7f ≤ c.toNat && c.toNat ≤ 0x9f)

def replaceCtrl (l : List Char) : List Char :=
  l.map (fun c => if isCtrlChar c then '_' else c)

/-- `text.replace('__', '_')`: non-overlapping left-to-right, the replacement
is not rescanned. -/
def collapseUU : List Char → List Char
  | '_' :: '_' :: rest => '_' :: collapseUU rest
  | c :: rest => c :: collapseUU rest
  | [] => []

def windowsReserved : List String :=
  ["CON", "PRN", "AUX", "NUL", "COM1", "COM2", "COM3", "COM4", "COM5", "COM6",
   "COM7", "COM8", "COM9", "LPT1", "LPT2", "LPT3", "LPT4", "LPT5", "LPT6",
   "LPT7", "LPT8", "LPT9"]

def clean_filename (text0 : String) : String :=
  if text0 = "" ∨ pyStrip text0 = "" then "unnamed"
  else
    let l1 := replaceInvalid text0.data
    let l2 := replaceCtrl l1
    let l3 := replaceChar ' ' '_' l2
    let l4 := collapseUU l3
    let l5 := stripEnds (fun c => c == '_' || c == '.') l4
    let text := String.mk l5
    let nameOnly := pyUpper ((pySplit text ".").headD "")
    let text := if windowsReserved.contains nameOnly then "file_" ++ text else text
    let text :=
      if pyStrip (String.mk (text.data.filter (fun c => !(c == '.')))) = "" then "unnamed"
      else text
    let text := if text.length > 200 then String.mk (text.data.take 200) else text
    let text := String.mk (stripRight (fun c => c == '.' || c == ' ') text.data)
    if text = "" then "unnamed" else text

/-! ### Network model

Each `session.get`/`session.post` consumes the next event of a `Trace`.
A non-response event stands for the exception raised by the request library
(caught by the surrounding `try`/`except` blocks of the source). -/

structure HttpResp where
  finalUrl : String
  statusCode : Nat
  text : String
  /-- `response.headers.get('Location', '')`. -/
  location : String := ""
  deriving Repr, DecidableEq

inductive NetEvent where
  | resp (r : HttpResp)
  | timeout
  | reqError (msg : String)
  | exn (msg : String)
  deriving Repr, DecidableEq

abbrev Trace := List NetEvent

def takeEvent : Trace → NetEvent × Trace
  | [] => (NetEvent.exn "connection closed", [])
  | e :: t => (e, t)

/-- `str(e)` for a raised request exception. -/
def eventMsg : NetEvent → String
  | .resp _ => ""
  | .timeout => "timed out"
  | .reqError m => m
  | .exn m => m

/-- The result dictionary of the per-service test functions.  Keys absent from
a given return statement are `none`. -/
structure TestResult where
  status : String
  message : String
  finalUrl : Option String := none
  statusCode : Option Nat := none
  planInfo : Option String := none
  deriving Repr, DecidableEq

def redirectCodes : List Nat := [301, 302, 303, 307, 308]

/-! ### bot.py: plan extractors (lines 222-248, 319-344, 460-483) -/

def spotifyExactPlanPatterns : List String :=
  ["<div[^>]*class=\"sc-15a2717d-5 gNnrac\"[^>]*>.*?<span[^>]*class=\"[^\"]*encore-text-title-medium[^\"]*\"[^>]*>([^<]+)</span>",
   "<span[^>]*class=\"[^\"]*encore-text-title-medium[^\"]*\"[^>]*>([^<]+)</span>",
   "<div[^>]*class=\"[^\"]*gNnrac[^\"]*\"[^>]*>.*?<span[^>]*>([^<]+)</span>"]

def spotifySubscriptionDivPatterns : List String :=
  ["<div[^>]*class=\"[^\"]*sc-15a2717d-5[^\"]*\"[^>]*>.*?<span[^>]*>([^<]+)</span>",
   "<div[^>]*class=\"[^\"]*gNnrac[^\"]*\"[^>]*>.*?<span[^>]*>([^<]+)</span>",
   "<div[^>]*class=\"[^\"]*dbRLzW[^\"]*\"[^>]*>.*?<span[^>]*>([^<]+)</span>"]

def netflixExactPlanPatterns : List String :=
  ["<h3[^>]*data-uia=\"account-membership-page\\+plan-card\\+title\"[^>]*class=\"[^\"]*\"[^>]*>([^<]+)</h3>",
   "<h3[^>]*class=\"[^\"]*\"[^>]*>([^<]+)</h3>",
   "<div[^>]*class=\"[^\"]*default-ltr-cache-1rvukw7[^\"]*\"[^>]*>.*?<h3[^>]*>([^<]+)</h3>"]

def netflixMembershipDivPatterns : List String :=
  ["<div[^>]*class=\"[^\"]*default-ltr-cache-1rvukw7[^\"]*\"[^>]*>.*?<h3[^>]*>([^<]+)</h3>",
   "<div[^>]*class=\"[^\"]*e1devdx33[^\"]*\"[^>]*>.*?<h3[^>]*>([^<]+)</h3>"]

/-- Loop body shared by `extract_spotify_plan` and `extract_netflix_plan`: a
match whose stripped group is shorter than 50 characters and has no digit is
returned, otherwise the next pattern is tried. -/
def tryPlanPattern (re : ReOracle) (html pat : String) : Option String :=
  match re.search pat html with
  | some m =>
    let planName := pyStrip m
    if planName.length < 50 && !hasDigit planName then some ("Plan: " ++ planName)
    else none
  | none => none

def extract_spotify_plan (re : ReOracle) (html : String) : String :=
  match spotifyExactPlanPatterns.findSome? (tryPlanPattern re html) with
  | some r => r
  | none =>
    match spotifySubscriptionDivPatterns.findSome? (tryPlanPattern re html) with
    | some r => r
    | none => "Plan: Unknown"

def extract_netflix_plan (re : ReOracle) (html : String) : String :=
  match netflixExactPlanPatterns.findSome? (tryPlanPattern re html) with
  | some r => r
  | none =>
    match netflixMembershipDivPatterns.findSome? (tryPlanPattern re html) with
    | some r => r
    | none => "Plan: Unknown"

def canvaAutoPlanPatterns : List String :=
  ["<h4[^>]*class=\"[^\"]*\"[^>]*>([^<]+)</h4>",
   "<div[^>]*class=\"[^\"]*plan[^\"]*\"[^>]*>([^<]+)</div>",
   "<div[^>]*class=\"[^\"]*subscription[^\"]*\"[^>]*>([^<]+)</div>"]

def canvaSkipWords : List String := ["button", "menu", "nav", "header", "footer"]

def canvaPlanIndicators : List String := ["pro", "free", "premium", "basic", "business", "team"]

/-- Filter applied to each `re.findall` match inside `extract_canva_plan`. -/
def canvaCandidate (m : String) : Option String :=
  let planText := pyStrip m
  if 3 < planText.length && planText.length < 50 then
    if !(canvaSkipWords.any (fun w => strContains (pyLower planText) w)) then
      if canvaPlanIndicators.any (fun w => strContains (pyLower planText) w) then some planText
      else none
    else none
  else none

def extract_canva_plan (re : ReOracle) (html : String) : String :=
  let detected := canvaAutoPlanPatterns.flatMap
    (fun pat => (re.findall pat html).filterMap canvaCandidate)
  match detected with
  | [] => "Plan: Unknown"
  | t :: _ => "Plan: " ++ t

/-! ### bot.py: TikTok helpers (lines 346-394) -/

def extract_tiktok_username (re : ReOracle) (html : String) : Option String :=
  (re.findall "\"uniqueId\":\"([^\"]+)\"" html).head?

structure TiktokStats where
  followers : String := "0"
  following : String := "0"
  likes : String := "0"
  videos : String := "0"
  verified : String := "0"
  deriving Repr, DecidableEq

def extract_tiktok_profile_stats (re : ReOracle) (html : String) : TiktokStats :=
  { followers := (re.search "\"followerCount\":(\\d+)" html).getD "0",
    following := (re.search "\"followingCount\":(\\d+)" html).getD "0",
    likes := (re.search "\"heartCount\":(\\d+)" html).getD "0",
    videos := (re.search "\"videoCount\":(\\d+)" html).getD "0",
    verified := (re.search "\"verified\":(true|false)" html).getD "0" }

/-- Result of `test_tiktok_profile`.  In Python the error dictionaries carry no
`stats` key and the caller reads `stats` only on success; the default value is
never observed. -/
structure ProfileResult where
  status : String
  message : String := ""
  stats : TiktokStats := {}
  finalUrl : Option String := none
  statusCode : Option Nat := none
  deriving Repr, DecidableEq

def test_tiktok_profile (re : ReOracle) (_cookies : List Cookie) (username : String)
    (tr : Trace) : ProfileResult :=
  match (takeEvent tr).1 with
  | .resp r =>
    if r.statusCode == 200 && strContains r.finalUrl ("@" ++ username) then
      { status := "success", stats := extract_tiktok_profile_stats re r.text,
        finalUrl := some r.finalUrl, statusCode := some r.statusCode }
    else
      { status := "error",
        message := "Cannot access profile page: " ++ toString r.statusCode,
        finalUrl := some r.finalUrl, statusCode := some r.statusCode }
  | e => { status := "error", message := "Error accessing profile: " ++ eventMsg e }

/-! ### bot.py: per-service login tests (lines 250-658) -/

def test_roblox_login (_cookies : List Cookie) (tr : Trace) : TestResult :=
  match (takeEvent tr).1 with
  | .resp r =>
    if r.statusCode == 200 then
      if strContains r.finalUrl "/home" && !strContains (pyLower r.finalUrl) "login" then
        { status := "success", message := "Cookie LIVE", finalUrl := some r.finalUrl,
          statusCode := some r.statusCode, planInfo := some "Status: LIVE" }
      else
        { status := "dead", message := "Cookie DEAD", finalUrl := some r.finalUrl,
          statusCode := some r.statusCode, planInfo := some "Status: DEAD" }
    else
      { status := "dead", message := "Cookie DEAD - HTTP " ++ toString r.statusCode,
        finalUrl := some r.finalUrl, statusCode := some r.statusCode,
        planInfo := some "Status: DEAD" }
  | e =>
    { status := "error", message := "Error testing Roblox: " ++ eventMsg e,
      planInfo := some "Status: Error" }

def test_instagram_login (_cookies : List Cookie) (tr : Trace) : TestResult :=
  match (takeEvent tr).1 with
  | .resp r =>
    if r.statusCode == 200 then
      if strContains r.finalUrl "/accounts/edit/" then
        { status := "success", message := "Cookie LIVE", finalUrl := some r.finalUrl,
          statusCode := some r.statusCode, planInfo := some "Status: LIVE" }
      else
        { status := "dead", message := "Cookie DEAD", finalUrl := some r.finalUrl,
          statusCode := some r.statusCode, planInfo := some "Status: DEAD" }
    else
      { status := "dead", message := "Cookie DEAD - HTTP " ++ toString r.statusCode,
        finalUrl := some r.finalUrl, statusCode := some r.statusCode,
        planInfo := some "Status: DEAD" }
  | e =>
    { status := "error", message := "Error testing Instagram: " ++ eventMsg e,
      planInfo := some "Status: Error" }

def test_facebook_login (_cookies : List Cookie) (tr : Trace) : TestResult :=
  match (takeEvent tr).1 with
  | .resp r =>
    if r.statusCode == 200 then
      if strContains (pyLower r.finalUrl) "facebook.com/settings" then
        { status := "success", message := "Cookie LIVE", finalUrl := some r.finalUrl,
          statusCode := some r.statusCode, planInfo := some "Status: LIVE" }
      else
        { status := "dead", message := "Cookie DEAD", finalUrl := some r.finalUrl,
          statusCode := some r.statusCode, planInfo := some "Status: DEAD" }
    else
      { status := "dead", message := "Cookie DEAD - HTTP " ++ toString r.statusCode,
        finalUrl := some r.finalUrl, statusCode := some r.statusCode,
        planInfo := some "Status: DEAD" }
  | e =>
    { status := "error", message := "Error testing Facebook: " ++ eventMsg e,
      planInfo := some "Status: Error" }

def test_canva_login (re : ReOracle) (_cookies : List Cookie) (tr : Trace) : TestResult :=
  let (e1, tr1) := takeEvent tr
  match e1 with
  | .resp r =>
    if r.statusCode == 200 then
      if strContains (pyLower r.finalUrl) "canva.com/settings" then
        let planInfo :=
          match (takeEvent tr1).1 with
          | .resp b => if b.statusCode == 200 then extract_canva_plan re b.text else "Plan: Unknown"
          | _ => "Plan: Unknown"
        { status := "success", message := "Cookie LIVE", finalUrl := some r.finalUrl,
          statusCode := some r.statusCode, planInfo := some planInfo }
      else
        { status := "dead", message := "Cookie DEAD", finalUrl := some r.finalUrl,
          statusCode := some r.statusCode, planInfo := some "Status: DEAD" }
    else
      { status := "dead", message := "Cookie DEAD - HTTP " ++ toString r.statusCode,
        finalUrl := some r.finalUrl, statusCode := some r.statusCode,
        planInfo := some "Status: DEAD" }
  | e =>
    { status := "error", message := "Error testing Canva login: " ++ eventMsg e,
      planInfo := some "Status: Error" }

/-- `test_linkedin_login` falls off the end of the function (returning `None`)
when the response is a redirect whose `Location` does not contain
`/uas/login`. -/
def test_linkedin_login (_cookies : List Cookie) (tr : Trace) : Option TestResult :=
  match (takeEvent tr).1 with
  | .resp r =>
    if redirectCodes.contains r.statusCode then
      if strContains r.location "/uas/login" then
        some { status := "dead", message := "Cookie DEAD", finalUrl := some r.location,
               statusCode := some r.statusCode }
      else none
    else if r.statusCode == 200 then
      some { status := "success", message := "Cookie LIVE", finalUrl := some r.finalUrl,
             statusCode := some r.statusCode }
    else
      some { status := "unknown", message := "Unexpected response",
             finalUrl := some r.finalUrl, statusCode := some r.statusCode }
  | e => some { status := "error", message := "Error testing LinkedIn login: " ++ eventMsg e }

/-- `test_amazon_login` has the same fall-through as `test_linkedin_login`. -/
def test_amazon_login (_cookies : List Cookie) (tr : Trace) : Option TestResult :=
  match (takeEvent tr).1 with
  | .resp r =>
    if redirectCodes.contains r.statusCode then
      if strContains r.location "/signin" || strContains r.location "/ap/signin" then
        some { status := "dead", message := "Cookie DEAD", finalUrl := some r.location,
               statusCode := some r.statusCode }
      else none
    else if r.statusCode == 200 then
      some { status := "success", message := "Cookie LIVE", finalUrl := some r.finalUrl,
             statusCode := some r.statusCode }
    else
      some { status := "unknown", message := "Unexpected response",
             finalUrl := some r.finalUrl, statusCode := some r.statusCode }
  | e => some { status := "error", message := "Error testing Amazon login: " ++ eventMsg e }

def wordpressAuthenticatedPatterns : List String :=
  ["data-user-id=\"(\\d+)\"",
   "\"user_id\":(\\d+)",
   "\"username\":\"([^\"]+)\"",
   "class=\"[^\"]*account[^\"]*settings[^\"]*\""]

def wordpressLoginPrompts : List String :=
  ["Sign up or log in",
   "Log in to WordPress\\.com",
   "class=\"[^\"]*login-form[^\"]*\""]

def test_wordpress_login (re : ReOracle) (_cookies : List Cookie) (tr : Trace) : TestResult :=
  match (takeEvent tr).1 with
  | .resp r =>
    let authFound := wordpressAuthenticatedPatterns.any (fun p => (re.search p r.text).isSome)
    let loginFound := wordpressLoginPrompts.any (fun p => (re.search p r.text).isSome)
    if authFound && !loginFound then
      { status := "success", message := "Cookie LIVE", finalUrl := some r.finalUrl,
        statusCode := some r.statusCode }
    else if loginFound then
      { status := "dead", message := "Cookie DEAD", finalUrl := some r.finalUrl,
        statusCode := some r.statusCode }
    else
      { status := "unknown", message := "Unclear authentication status",
        finalUrl := some r.finalUrl, statusCode := some r.statusCode }
  | e => { status := "error", message := "Error testing WordPress login: " ++ eventMsg e }

def test_youtube_login (_cookies : List Cookie) (tr : Trace) : TestResult :=
  match (takeEvent tr).1 with
  | .resp r =>
    if redirectCodes.contains r.statusCode then
      { status := "dead", message := "Cookie DEAD", finalUrl := some r.finalUrl,
        statusCode := some r.statusCode }
    else if r.statusCode == 200 then
      { status := "success", message := "Cookie LIVE", finalUrl := some r.finalUrl,
        statusCode := some r.statusCode }
    else
      { status := "unknown", message := "Unexpected response",
        finalUrl := some r.finalUrl, statusCode := some r.statusCode }
  | e => { status := "error", message := "Error testing YouTube login: " ++ eventMsg e }

def capcutSubscribePattern : String :=
  "subscribe_info[\"\\\\\\s]*:[\"\\\\\\s]*\x7b[\"\\\\\\s]*flag[\"\\\\\\s]*:[\"\\\\\\s]*(true|false)"

def test_capcut_login (re : ReOracle) (_cookies : List Cookie) (tr : Trace) : TestResult :=
  match (takeEvent tr).1 with
  | .resp r =>
    if r.finalUrl == "https://www.capcut.com" || r.finalUrl == "https://www.capcut.com/" then
      { status := "dead", message := "Cookie DEAD", finalUrl := some r.finalUrl,
        statusCode := some r.statusCode }
    else
      let plan :=
        match re.search capcutSubscribePattern r.text with
        | some m => if m == "true" then "Pro" else "Free"
        | none => "Unknown"
      if r.statusCode == 200 && (strContains r.finalUrl "my-edit" || strContains r.text "/my-edit") then
        { status := "success", message := "Cookie LIVE", finalUrl := some r.finalUrl,
          statusCode := some r.statusCode, planInfo := some ("Plan: " ++ plan) }
      else
        { status := "unknown", message := "Unexpected response", finalUrl := some r.finalUrl,
          statusCode := some r.statusCode }
  | e => { status := "error", message := "Error testing CapCut login: " ++ eventMsg e }

/-! ### bot.py: `test_cookies_with_target` (lines 129-220) -/

def facebookRequiredCookies : List String := ["c_user", "xs"]

/-- Python `', '.join(l)`. -/
def joinComma : List String → String
  | [] => ""
  | [x] => x
  | x :: rest => x ++ ", " ++ joinComma rest

/-- TikTok `plan_info` string built on the settings page (lines 184-200). -/
def tiktokPlanInfo (re : ReOracle) (cookies : List Cookie) (html : String) (tr1 : Trace) :
    String :=
  match extract_tiktok_username re html with
  | some username =>
    let pr := test_tiktok_profile re cookies username tr1
    if pr.status == "success" then
      let st := pr.stats
      let base := "User: " ++ username ++ " | Followers: " ++ st.followers ++
        " | Following: " ++ st.following ++ " | Likes: " ++ st.likes ++
        " | Videos: " ++ st.videos
      if st.verified == "true" then base ++ " | Verified" else base
    else "User: " ++ username ++ " | Profile: " ++ pr.message
  | none => "Status: LIVE"

/-- The request path of `test_cookies_with_target` (lines 156-220), reached
when no specialized dispatch applies. -/
def testGenericTarget (re : ReOracle) (cookies : List Cookie)
    (targetUrl : String) (tr : Trace) : Option TestResult :=
  let (e, tr1) := takeEvent tr
  match e with
  | .resp r =>
    if strContains (pyLower r.finalUrl) "login" || strContains (pyLower r.finalUrl) "signin" ||
        strContains (pyLower r.finalUrl) "accounts." then
      some { status := "dead", message := "Cookie DEAD", finalUrl := some r.finalUrl,
             statusCode := some r.statusCode }
    else if r.statusCode == 200 then
      if strContains (pyLower targetUrl) "tiktok.com" then
        if strContains (pyLower r.finalUrl) "tiktok.com/setting" then
          some { status := "success", message := "Cookie LIVE", finalUrl := some r.finalUrl,
                 statusCode := some r.statusCode,
                 planInfo := some (tiktokPlanInfo re cookies r.text tr1) }
        else
          some { status := "dead", message := "Cookie DEAD", finalUrl := some r.finalUrl,
                 statusCode := some r.statusCode, planInfo := some "Status: DEAD" }
      else if strContains (pyLower targetUrl) "canva.com" then
        some (test_canva_login re cookies tr1)
      else if strContains (pyLower r.finalUrl) "account" || strContains (pyLower r.finalUrl) "overview" ||
          strContains (pyLower r.finalUrl) "membership" || strContains (pyLower r.finalUrl) "billing" then
        let planInfo :=
          if strContains (pyLower targetUrl) "spotify.com" then extract_spotify_plan re r.text
          else if strContains (pyLower targetUrl) "netflix.com" then extract_netflix_plan re r.text
          else ""
        some { status := "success", message := "Cookie LIVE", finalUrl := some r.finalUrl,
               statusCode := some r.statusCode, planInfo := some planInfo }
      else
        some { status := "unknown", message := "Cookie UNKNOWN", finalUrl := some r.finalUrl,
               statusCode := some r.statusCode }
    else
      some { status := "dead", message := "Cookie DEAD - HTTP " ++ toString r.statusCode,
             finalUrl := some r.finalUrl, statusCode := some r.statusCode }
  | e' => some { status := "error", message := "Error testing cookies: " ++ eventMsg e' }

def test_cookies_with_target (re : ReOracle) (cookies : List Cookie)
    (targetUrl : String) (_containsText : String) (tr : Trace) : Option TestResult :=
  if cookies.isEmpty then
    some { status := "no_cookies", message := "No suitable cookies found for this domain" }
  else if strContains (pyLower targetUrl) "roblox.com" then
    some (test_roblox_login cookies tr)
  else if strContains (pyLower targetUrl) "instagram.com" then
    some (test_instagram_login cookies tr)
  else if strContains (pyLower targetUrl) "youtube.com" then
    some (test_youtube_login cookies tr)
  else if strContains (pyLower targetUrl) "linkedin.com" then
    test_linkedin_login cookies tr
  else if strContains (pyLower targetUrl) "amazon.com" then
    test_amazon_login cookies tr
  else if strContains (pyLower targetUrl) "wordpress.com" then
    some (test_wordpress_login re cookies tr)
  else if strContains (pyLower targetUrl) "capcut.com" then
    some (test_capcut_login re cookies tr)
  else if strContains (pyLower targetUrl) "facebook.com" then
    let cookieNames := cookies.map (·.name)
    let missing := facebookRequiredCookies.filter (fun c => !cookieNames.contains c)
    if !missing.isEmpty then
      some { status := "no_cookies",
             message := "Not enough Facebook cookies (missing: " ++ joinComma missing ++ ")",
             finalUrl := some targetUrl, statusCode := some 200 }
    else some (test_facebook_login cookies tr)
  else testGenericTarget re cookies targetUrl tr

def test_netflix_login (re : ReOracle) (cookies : List Cookie) (tr : Trace) : Option TestResult :=
  test_cookies_with_target re cookies "https://www.netflix.com/account" "Account" tr

def test_spotify_login (re : ReOracle) (cookies : List Cookie) (tr : Trace) : Option TestResult :=
  test_cookies_with_target re cookies "https://www.spotify.com/account/overview/" "Overview" tr

def test_tiktok_login (re : ReOracle) (cookies : List Cookie) (tr : Trace) : Option TestResult :=
  test_cookies_with_target re cookies "https://www.tiktok.com/setting" "Settings" tr

/-! ### bot.py: dispatch tables (lines 660-688, 763-776) -/

structure ScanTarget where
  url : String
  containsText : String
  domains : List String
  deriving Repr, DecidableEq

def SCAN_TARGETS : List (String × ScanTarget) :=
  [("netflix", ⟨"https://www.netflix.com/account", "Account", [".netflix.com", "netflix.com"]⟩),
   ("spotify", ⟨"https://www.spotify.com/account/overview/", "Overview", [".spotify.com", "spotify.com"]⟩),
   ("tiktok", ⟨"https://www.tiktok.com/setting", "Settings", [".tiktok.com", "tiktok.com"]⟩),
   ("facebook", ⟨"https://www.facebook.com/settings", "Settings", [".facebook.com", "facebook.com"]⟩),
   ("canva", ⟨"https://www.canva.com/settings/", "Settings", [".canva.com", "canva.com"]⟩),
   ("roblox", ⟨"https://www.roblox.com/home", "Home", [".roblox.com", "roblox.com"]⟩),
   ("instagram", ⟨"https://www.instagram.com/accounts/edit/", "Edit", [".instagram.com", "instagram.com"]⟩),
   ("youtube", ⟨"https://www.youtube.com/account", "Account", [".youtube.com", "youtube.com"]⟩),
   ("linkedin", ⟨"https://www.linkedin.com/mypreferences/d/categories/account", "Preferences", [".linkedin.com", "linkedin.com"]⟩),
   ("amazon", ⟨"https://www.amazon.com/gp/your-account/order-history", "Order", [".amazon.com", "amazon.com"]⟩),
   ("wordpress", ⟨"https://wordpress.com/me/", "Me", [".wordpress.com", "wordpress.com"]⟩),
   ("capcut", ⟨"https://www.capcut.com/my-edit", "My Edit", [".capcut.com", "capcut.com"]⟩)]

/-- Common Lean type of the Python test functions stored in
`SERVICE_TEST_FUNCTIONS` (the functions that never return `None` are wrapped
with `some`; those that ignore `re` discard it). -/
abbrev TestFn := ReOracle → List Cookie → Trace → Option TestResult

def SERVICE_TEST_FUNCTIONS : List (String × TestFn) :=
  [("netflix", test_netflix_login),
   ("spotify", test_spotify_login),
   ("tiktok", test_tiktok_login),
   ("facebook", fun _re cs tr => some (test_facebook_login cs tr)),
   ("canva", fun re cs tr => some (test_canva_login re cs tr)),
   ("roblox", fun _re cs tr => some (test_roblox_login cs tr)),
   ("instagram", fun _re cs tr => some (test_instagram_login cs tr)),
   ("youtube", fun _re cs tr => some (test_youtube_login cs tr)),
   ("linkedin", fun _re cs tr => test_linkedin_login cs tr),
   ("amazon", fun _re cs tr => test_amazon_login cs tr),
   ("wordpress", fun re cs tr => some (test_wordpress_login re cs tr)),
   ("capcut", fun re cs tr => some (test_capcut_login re cs tr))]

def lookupTestFn (k : String) : Option TestFn :=
  (SERVICE_TEST_FUNCTIONS.find? (fun p => p.1 == k)).map (·.2)

def lookupTarget (k : String) : Option ScanTarget :=
  (SCAN_TARGETS.find? (fun p => p.1 == k)).map (·.2)

def SERVICES : List (String × String) :=
  [("netflix", "Netflix"), ("spotify", "Spotify"), ("tiktok", "TikTok"),
   ("facebook", "Facebook"), ("canva", "Canva"), ("roblox", "Roblox"),
   ("instagram", "Instagram"), ("youtube", "YouTube"), ("linkedin", "LinkedIn"),
   ("amazon", "Amazon"), ("wordpress", "WordPress"), ("capcut", "CapCut")]

/-- `SERVICES.get(key, key)`. -/
def servicesGet (k : String) : String :=
  ((SERVICES.find? (fun p => p.1 == k)).map (·.2)).getD k

/-! ### bot.py: `scan_cookie_content` (lines 1300-1340) and
`process_single_file` (lines 1342-1347)

The network is a function `net` assigning to each service key the trace of
responses its test function will consume. -/

/-- The result dictionary for one service, as augmented by
`scan_cookie_content` (`cookie_count`, `service_name`, `original_content`). -/
structure ScanServiceResult where
  res : TestResult
  cookieCount : Nat
  serviceName : Option String := none
  originalContent : Option String := none
  deriving Repr, DecidableEq

inductive ScanOutcome where
  | err (msg : String)
  | all (results : List (String × ScanServiceResult))
  | single (r : ScanServiceResult)
  deriving Repr, DecidableEq

/-- Python truthiness of the `original_content` argument. -/
def pyTruthy : Option String → Bool
  | none => false
  | some s => s != ""

/-- Replacement used when a test function does not return a dictionary
(`if not isinstance(result, dict)`, lines 1314-1315 and 1333-1334). -/
def unknownFallback : TestResult :=
  { status := "unknown", message := "Internal error while testing cookies" }

/-- Loop body of the `for service_key, service_info in SCAN_TARGETS.items()`
loop of `scan_cookie_content` in all-services mode. -/
def scanServiceEntry (re : ReOracle) (net : String → Trace) (cookies : List Cookie)
    (originalContent : Option String) (kv : String × ScanTarget) :
    Option (String × ScanServiceResult) :=
  let filtered := filter_cookies_by_domain cookies kv.2.domains
  if filtered.isEmpty then none
  else
    match lookupTestFn kv.1 with
    | none => none
    | some f =>
      let r0 := (f re filtered (net kv.1)).getD unknownFallback
      some (kv.1,
        { res := r0, cookieCount := filtered.length, serviceName := some kv.1,
          originalContent :=
            if pyTruthy originalContent && r0.status == "success" then originalContent
            else none })

def scanAllServices (re : ReOracle) (net : String → Trace) (cookies : List Cookie)
    (originalContent : Option String) : List (String × ScanServiceResult) :=
  SCAN_TARGETS.filterMap (scanServiceEntry re net cookies originalContent)

def scan_cookie_content (re : ReOracle) (net : String → Trace) (content : String)
    (serviceName : String) (originalContent : Option String := none) : ScanOutcome :=
  match parse_cookies_txt content with
  | .error e => .err ("Error scanning cookie: " ++ e)
  | .ok cookies =>
    if cookies.isEmpty then .err "No valid cookies found in file"
    else if serviceName == "all" then
      .all (scanAllServices re net cookies originalContent)
    else
      match lookupTarget serviceName with
      | none => .err ("Scan not supported for " ++ serviceName)
      | some target =>
        let filtered := filter_cookies_by_domain cookies target.domains
        if filtered.isEmpty then .err ("No suitable cookies found for " ++ serviceName)
        else
          match lookupTestFn serviceName with
          | none => .err ("Scan not supported for " ++ serviceName)
          | some f =>
            let r0 := (f re filtered (net serviceName)).getD unknownFallback
            .single
              { res := r0, cookieCount := filtered.length,
                originalContent :=
                  if pyTruthy originalContent && r0.status == "success" then originalContent
                  else none }

def process_single_file (re : ReOracle) (net : String → String → Trace)
    (fileName content selectedService : String) : String × ScanOutcome :=
  (fileName, scan_cookie_content re (net fileName) content selectedService (some content))

/-! ### bot.py: `handle_document` zip branch (lines 1392-1511) and
`send_live_cookies_archive` (lines 1570-1603)

The worker pool is modelled by an arbitrary permutation of the submitted
jobs: `as_completed` yields the results in an unconstrained order. -/

def MAX_WORKERS : Nat := 10

structure ZipEntry where
  name : String
  content : String
  deriving Repr, DecidableEq

/-- `names = [n for n in zf.namelist() if n.lower().endswith('.txt')]`. -/
def txtNames (entries : List ZipEntry) : List String :=
  (entries.filter (fun e => pyEndsWith (pyLower e.name) ".txt")).map (·.name)

/-- `Path(n).name`. -/
def pathName (n : String) : String :=
  (pySplit n "/").getLastD ""

/-- `files_to_process`: one `(Path(n).name, content)` pair per `.txt` member
(in-memory zip reads do not fail in the model). -/
def filesToProcess (entries : List ZipEntry) : List (String × String) :=
  (entries.filter (fun e => pyEndsWith (pyLower e.name) ".txt")).map
    (fun e => (pathName e.name, e.content))

/-- The jobs submitted to the `ThreadPoolExecutor`, one per entry of
`files_to_process`, in submission order. -/
def submittedJobs (re : ReOracle) (net : String → String → Trace)
    (selectedService : String) (entries : List ZipEntry) : List (String × ScanOutcome) :=
  (filesToProcess entries).map (fun nc => process_single_file re net nc.1 nc.2 selectedService)

/-- Python `dict[key] = value` on an association list (insertion order kept,
existing key overwritten in place). -/
def assocSet {α : Type} : List (String × α) → String → α → List (String × α)
  | [], k, v => [(k, v)]
  | (k', v') :: rest, k, v =>
    if k' == k then (k, v) :: rest else (k', v') :: assocSet rest k v

/-- `dict.setdefault(key, []).append(value)` pattern used for `live_cookies`. -/
def addTo {α : Type} : List (String × List α) → String → α → List (String × List α)
  | [], k, v => [(k, [v])]
  | (k', vs) :: rest, k, v =>
    if k' == k then (k', vs ++ [v]) :: rest else (k', vs) :: addTo rest k v

/-- `live_cookies.get(key, [])`. -/
def lookupList {α : Type} : List (String × List α) → String → List α
  | [], _ => []
  | (k0, vs) :: rest, k => if k0 == k then vs else lookupList rest k

/-- `result.get('all_results', {})`. -/
def allResultsOf : ScanOutcome → List (String × ScanServiceResult)
  | .all rs => rs
  | _ => []

/-- `result.get('status')`. -/
def statusOf : ScanOutcome → Option String
  | .single r => some r.res.status
  | _ => none

structure AggState where
  processedFiles : Nat := 0
  errorMessages : List String := []
  allResults : List (String × ScanOutcome) := []
  liveCookies : List (String × List (String × ScanServiceResult)) := []
  deriving Repr

/-- Body of the `for future in as_completed(futures)` loop
(lines 1418-1439). -/
def stepAgg (selectedService : String) (st : AggState) (item : String × ScanOutcome) :
    AggState :=
  let fileName := item.1
  let result := item.2
  let st := { st with processedFiles := st.processedFiles + 1 }
  match result with
  | .err m => { st with errorMessages := st.errorMessages ++ [fileName ++ ": " ++ m] }
  | result =>
    if selectedService == "all" then
      let st := { st with allResults := assocSet st.allResults fileName result }
      { st with
        liveCookies := (allResultsOf result).foldl
          (fun lc sr =>
            if sr.2.res.status == "success" then addTo lc sr.1 (fileName, sr.2) else lc)
          st.liveCookies }
    else
      let st := { st with allResults := assocSet st.allResults fileName result }
      if statusOf result == some "success" then
        match result with
        | .single r => { st with liveCookies := addTo st.liveCookies selectedService (fileName, r) }
        | _ => st
      else st

def aggregate (selectedService : String) (completed : List (String × ScanOutcome)) :
    AggState :=
  completed.foldl (stepAgg selectedService) {}

/-- `f"Scan Summary for {len(names)} files:"` reports `len(names)`. -/
def summaryHeaderCount (entries : List ZipEntry) : Nat :=
  (txtNames entries).length

/-- The `(arcname, payload)` pairs written by `send_live_cookies_archive`
(lines 1575-1591). -/
def archiveEntries (selectedService : String)
    (liveCookies : List (String × List (String × ScanServiceResult))) :
    List (String × String) :=
  if selectedService == "all" then
    liveCookies.flatMap (fun kv =>
      let serviceName := pyTitle (servicesGet kv.1)
      let serviceFolder := serviceName ++ "_Live_Cookies/"
      kv.2.filterMap (fun fr =>
        let content := fr.2.originalContent.getD ""
        if content != "" then some (serviceFolder ++ fr.1, content) else none))
  else
    let serviceName := pyTitle (servicesGet selectedService)
    (lookupList liveCookies selectedService).filterMap (fun fr =>
      let content := fr.2.originalContent.getD ""
      if content != "" then some (serviceName ++ "_Live/" ++ fr.1, content) else none)

/-! ### bot.py: user records and quotas (lines 760-855)

`datetime.now()` is the integer parameter `now` (seconds); ISO timestamps
become integers.  `vip_expiry` is `none` for Python `None` (falsy). -/

def NORMAL_PLAN_LIMIT : Nat := 30

def NORMAL_PLAN_RESET_HOURS : Int := 3

structure UserRecord where
  plan : String
  registered : Bool := false
  fileCount : Nat := 0
  lastReset : Int := 0
  vipExpiry : Option Int := none
  deriving Repr, DecidableEq

/-- Python `int(x)` for a non-negative number of seconds; `//` then `int()`
agree with integer division there. -/
def hoursOf (remaining : Int) : Int := remaining / 3600

def minutesOf (remaining : Int) : Int := (remaining % 3600) / 60

/-- `can_user_scan` (lines 816-837).  Returns the `(bool, message)` pair and
the updated user record. -/
def can_user_scan (now : Int) (u : UserRecord) : (Bool × String) × UserRecord :=
  let u :=
    if u.plan == "vip" then
      match u.vipExpiry with
      | some expiry =>
        if now > expiry then { u with plan := "normal", vipExpiry := none } else u
      | none => u
    else u
  if u.plan == "vip" then ((true, ""), u)
  else
    let u :=
      if now - u.lastReset > NORMAL_PLAN_RESET_HOURS * 3600 then
        { u with fileCount := 0, lastReset := now }
      else u
    if u.fileCount ≥ NORMAL_PLAN_LIMIT then
      let resetTime := u.lastReset + NORMAL_PLAN_RESET_HOURS * 3600
      let remaining := resetTime - now
      ((false,
        "You have used all " ++ toString NORMAL_PLAN_LIMIT ++
        " scan attempts. Please wait " ++ toString (hoursOf remaining) ++ " hours " ++
        toString (minutesOf remaining) ++ " minutes to reset or upgrade to VIP!"), u)
    else ((true, ""), u)

/-- `increment_file_count` (lines 839-842). -/
def increment_file_count (u : UserRecord) : UserRecord :=
  { u with fileCount := u.fileCount + 1 }

/-- `set_vip_with_duration` (lines 844-855), for an existing record. -/
def set_vip_with_duration (now : Int) (days : Int) (u : UserRecord) : UserRecord :=
  { u with plan := "vip", vipExpiry := some (now + days * 86400), fileCount := 0 }

/-! ### hotmail.py: `OutlookChecker.check` (lines 68-290)

The six sequential HTTP requests consume a `Trace`.  `jsonField text key`
stands for `response.json().get(key, "")`-style access: `none` at the
`access_token` lookup models `r4.json()` raising (caught by the generic
`except Exception` handler).  The `MSPCID` session cookie is the parameter
`mspcid` (`""` when absent). -/

def defaultKeywords : List String :=
  ["noreply@id.supercell.com", "security@facebookmail.com",
   "security@mail.instagram.com", "info@account.netflix.com",
   "no-reply@spotify.com", "service@intl.paypal.com", "noreply@discord.com",
   "no-reply@roblox.com", "no-reply@twitch.tv", "noreply@epicgames.com",
   "no-reply@ea.com", "noreply@steampowered.com", "no-reply@amazon.com",
   "no-reply@youtube.com", "noreply@twitter.com", "no-reply@x.com"]

def urlPostPattern : String := "urlPost\":\"([^\"]+)\""

def ppftPattern : String :=
  "name=\\\\\"PPFT\\\\\" id=\\\\\"i0327\\\\\" value=\\\\\"([^\"]+)\""

def authCodePattern : String := "code=([^&]+)"

/-- The `except` clauses at the bottom of `check`:
`requests.exceptions.Timeout`, `requests.exceptions.RequestException` and
the generic `Exception` handler. -/
def outlookExcept (e : NetEvent) : String :=
  match e with
  | .timeout => "❌ BAD | Timeout"
  | .reqError _ => "❌ BAD | Request Error"
  | e => "❌ ERROR: " ++ eventMsg e

/-- Appends `| name`, `| country`, `| birthdate` as in the `FREE`/`HIT`
result construction. -/
def outlookSuffix (base name country birthdate : String) : String :=
  let result := if name != "" then base ++ " | " ++ name else base
  let result := if country != "" then result ++ " | " ++ country else result
  if birthdate != "" && birthdate != "--" then result ++ " | " ++ birthdate else result

/-- Steps 6 and 7: the `startupdata.ashx` request (inner `try`/`except`
returning `Connection Error`) and the inbox keyword scan. -/
def outlookStep6 (keywords : List String) (name country birthdate : String)
    (tr : Trace) : String :=
  match (takeEvent tr).1 with
  | .resp r6 =>
    let foundKeywords := keywords.filterMap (fun kw =>
      let count := pyCount (pyLower r6.text) (pyLower kw)
      if count > 0 then some (kw, count) else none)
    if foundKeywords.isEmpty then
      outlookSuffix "🆓 FREE" name country birthdate
    else
      let keywordSummary := foundKeywords.map
        (fun kc => kc.1 ++ " (" ++ toString kc.2 ++ ")")
      outlookSuffix ("✅ HIT" ++ " | Found: " ++ joinComma keywordSummary)
        name country birthdate
  | _ => "❌ BAD | Connection Error"

/-- Step 5: the profile request and the scraped account fields. -/
def outlookStep5 (jsonField : String → String → Option String)
    (keywords : List String) (tr : Trace) : String :=
  let (e5, tr5) := takeEvent tr
  match e5 with
  | .resp r5 =>
    if r5.statusCode != 200 then "❌ BAD"
    else
      let country := (jsonField r5.text "location").getD ""
      let name := (jsonField r5.text "displayName").getD ""
      let birthDay := (jsonField r5.text "birthDay").getD ""
      let birthMonth := (jsonField r5.text "birthMonth").getD ""
      let birthYear := (jsonField r5.text "birthYear").getD ""
      let birthdate :=
        if birthDay != "" then birthDay ++ "-" ++ birthMonth ++ "-" ++ birthYear else ""
      outlookStep6 keywords name country birthdate tr5
  | e => outlookExcept e

/-- Step 4: the token request. -/
def outlookStep4 (jsonField : String → String → Option String)
    (keywords : List String) (tr : Trace) : String :=
  let (e4, tr4) := takeEvent tr
  match e4 with
  | .resp r4 =>
    if !strContains r4.text "access_token" then "❌ BAD"
    else
      match jsonField r4.text "access_token" with
      | none => "❌ ERROR: invalid token response"
      | some _accessToken => outlookStep5 jsonField keywords tr4
  | e => outlookExcept e

/-- Step 3: the login POST, auth-code extraction and CID cookie check. -/
def outlookStep3 (re : ReOracle) (jsonField : String → String → Option String)
    (keywords : List String) (mspcid : String) (tr : Trace) : String :=
  let (e3, tr3) := takeEvent tr
  match e3 with
  | .resp r3 =>
    if strContains r3.text "account or password is incorrect" ||
        strContains (pyLower r3.text) "error" then "❌ BAD"
    else if strContains r3.text "https://account.live.com/identity/confirm" then
      "❌ BAD | Need Verify"
    else if strContains r3.text "https://account.live.com/Abuse" then
      "❌ BAD | Locked"
    else if r3.location == "" then "❌ BAD"
    else
      match re.search authCodePattern r3.location with
      | none => "❌ BAD"
      | some _code =>
        if mspcid == "" then "❌ BAD"
        else outlookStep4 jsonField keywords tr3
  | e => outlookExcept e

/-- Step 2: the OAuth authorize request, `urlPost` and `PPFT` extraction. -/
def outlookStep2 (re : ReOracle) (jsonField : String → String → Option String)
    (keywords : List String) (mspcid : String) (tr : Trace) : String :=
  let (e2, tr2) := takeEvent tr
  match e2 with
  | .resp r2 =>
    match re.search urlPostPattern r2.text, re.search ppftPattern r2.text with
    | some _postUrl, some _ppft => outlookStep3 re jsonField keywords mspcid tr2
    | _, _ => "❌ BAD"
  | e => outlookExcept e

/-- `OutlookChecker.check` — Step 1 (the IDP probe) followed by the later
steps. -/
def outlookCheck (re : ReOracle) (jsonField : String → String → Option String)
    (keywords : List String) (mspcid : String) (_email _password : String)
    (tr : Trace) : String :=
  let (e1, tr1) := takeEvent tr
  match e1 with
  | .resp r1 =>
    if strContains r1.text "Neither" || strContains r1.text "Both" ||
        strContains r1.text "Placeholder" || strContains r1.text "OrgId" then "❌ BAD"
    else if !strContains r1.text "MSAccount" then "❌ BAD"
    else outlookStep2 re jsonField keywords mspcid tr1
  | e => outlookExcept e

/-! ## General helper lemmas -/

lemma append_ne_empty_left (s t : String) (h : s ≠ "") : s ++ t ≠ "" := by
  intro he
  apply h
  have hd := congrArg String.data he
  rw [String.data_append] at hd
  have hnil : String.data "" = [] := rfl
  rw [hnil] at hd
  have h1 := (List.append_eq_nil.mp hd).1
  have h2 : s = String.mk s.data := rfl
  rw [h2, h1]

lemma pyStartsWith_append (s t : String) : pyStartsWith (s ++ t) s = true := by
  unfold pyStartsWith
  rw [String.data_append, List.isPrefixOf_iff_prefix]
  exact List.prefix_append _ _

/-! ## C2 and C4: usage quotas -/

/-- Characterization of `can_user_scan` for a normal-plan user. -/
lemma can_user_scan_normal_eq (now : Int) (u : UserRecord) (hplan : u.plan = "normal") :
    can_user_scan now u =
      if now - u.lastReset > 10800 then
        ((true, ""), { u with fileCount := 0, lastReset := now })
      else if u.fileCount ≥ 30 then
        ((false,
          "You have used all " ++ toString NORMAL_PLAN_LIMIT ++
          " scan attempts. Please wait " ++ toString (hoursOf (u.lastReset + 10800 - now)) ++
          " hours " ++ toString (minutesOf (u.lastReset + 10800 - now)) ++
          " minutes to reset or upgrade to VIP!"), u)
      else ((true, ""), u) := by
  have hv : (u.plan == "vip") = false := by rw [hplan]; rfl
  unfold can_user_scan
  simp only [hv, Bool.false_eq_true, if_false, NORMAL_PLAN_RESET_HOURS]
  norm_num
  split_ifs with hwin hcnt <;> simp_all [NORMAL_PLAN_LIMIT]


/-- C2: for every user whose plan is `'normal'`, `can_user_scan` permits a
scan iff the file count for the current window (0 right after a reset) is
below `NORMAL_PLAN_LIMIT`; when more than `NORMAL_PLAN_RESET_HOURS` hours
have elapsed since `last_reset` the count is reset to 0 (with `last_reset`
moved to now) and the scan is permitted; when the count has reached the
limit inside the window the result is `False` with a non-empty wait
message. -/
theorem can_user_scan_normal (now : Int) (u : UserRecord) (hplan : u.plan = "normal") :
    ((can_user_scan now u).1.1 = true ↔
      (if now - u.lastReset > NORMAL_PLAN_RESET_HOURS * 3600 then 0 else u.fileCount) <
        NORMAL_PLAN_LIMIT) ∧
    (now - u.lastReset > NORMAL_PLAN_RESET_HOURS * 3600 →
      (can_user_scan now u).2.fileCount = 0 ∧ (can_user_scan now u).2.lastReset = now ∧
      (can_user_scan now u).1.1 = true) ∧
    (¬(now - u.lastReset > NORMAL_PLAN_RESET_HOURS * 3600) →
      u.fileCount ≥ NORMAL_PLAN_LIMIT →
      (can_user_scan now u).1.1 = false ∧ (can_user_scan now u).1.2 ≠ "") := by
  rw [can_user_scan_normal_eq now u hplan]
  have h3 : NORMAL_PLAN_RESET_HOURS * 3600 = 10800 := by norm_num [NORMAL_PLAN_RESET_HOURS]
  rw [h3]
  split_ifs with hwin hcnt
  · refine ⟨by simp [NORMAL_PLAN_LIMIT], fun _ => ⟨rfl, rfl, rfl⟩,
      fun h _ => absurd hwin h⟩
  · refine ⟨?_, fun h => absurd h hwin, fun _ _ => ⟨rfl, ?_⟩⟩
    · simp [NORMAL_PLAN_LIMIT]
      omega
    · repeat' apply append_ne_empty_left
      decide
  · refine ⟨?_, fun h => absurd h hwin, fun _ h => absurd h hcnt⟩
    simp [NORMAL_PLAN_LIMIT]
    omega

/-- Witness for C2 at a concrete blocked user and a concrete fresh user. -/
theorem can_user_scan_normal_witness :
    ((can_user_scan 0 { plan := "normal", fileCount := 30, lastReset := 0 }).1.1 = false ∧
      (can_user_scan 0 { plan := "normal", fileCount := 30, lastReset := 0 }).1.2 ≠ "") ∧
    (can_user_scan 20000 { plan := "normal", fileCount := 30, lastReset := 0 }).2.fileCount = 0 :=
  ⟨(can_user_scan_normal 0 { plan := "normal", fileCount := 30, lastReset := 0 } rfl).2.2
      (by decide) (by decide),
    ((can_user_scan_normal 20000 { plan := "normal", fileCount := 30, lastReset := 0 } rfl).2.1
      (by decide)).1⟩

/-- Characterization of `can_user_scan` for a VIP user: an expired VIP is
downgraded in place and re-enters the normal-quota logic; otherwise the scan
is permitted unconditionally. -/
lemma can_user_scan_vip_eq (now : Int) (u : UserRecord) (hplan : u.plan = "vip") :
    can_user_scan now u =
      match u.vipExpiry with
      | some e =>
        if now > e then can_user_scan now { u with plan := "normal", vipExpiry := none }
        else ((true, ""), u)
      | none => ((true, ""), u) := by
  have hv : (u.plan == "vip") = true := by rw [hplan]; rfl
  conv_lhs => unfold can_user_scan
  cases he : u.vipExpiry with
  | none => simp [hv, he]
  | some e =>
    by_cases hlt : now > e
    · simp only [hv, he, hlt, if_true, if_pos]
      conv_rhs => unfold can_user_scan
      simp
    · simp [hv, he, hlt]

/-- C4: for every user whose plan is `'vip'`: when the stored expiry is in
the past, `can_user_scan` downgrades the plan to `'normal'`, clears the
expiry, and applies the normal quota to the downgraded record; otherwise
(active VIP, or VIP with no expiry) the scan is permitted with an empty
error message. -/
theorem can_user_scan_vip (now : Int) (u : UserRecord) (hplan : u.plan = "vip") :
    (∀ e, u.vipExpiry = some e → now > e →
      (can_user_scan now u).2.plan = "normal" ∧
      (can_user_scan now u).2.vipExpiry = none ∧
      ((can_user_scan now u).1.1 = true ↔
        (if now - u.lastReset > NORMAL_PLAN_RESET_HOURS * 3600 then 0 else u.fileCount) <
          NORMAL_PLAN_LIMIT)) ∧
    ((u.vipExpiry = none ∨ ∃ e, u.vipExpiry = some e ∧ ¬ now > e) →
      (can_user_scan now u).1 = (true, "")) := by
  rw [can_user_scan_vip_eq now u hplan]
  constructor
  · intro e he hlt
    simp only [he, hlt, if_true, if_pos]
    rw [can_user_scan_normal_eq now { u with plan := "normal", vipExpiry := none } rfl]
    have h3 : NORMAL_PLAN_RESET_HOURS * 3600 = 10800 := by norm_num [NORMAL_PLAN_RESET_HOURS]
    rw [h3]
    dsimp only
    split_ifs with hwin hcnt <;>
      exact ⟨rfl, rfl, by simp [NORMAL_PLAN_LIMIT]; try omega⟩
  · intro hcase
    rcases hcase with hnone | ⟨e, he, hnlt⟩
    · simp [hnone]
    · simp [he, hnlt]

/-- Witness for C4: an expired VIP is downgraded, an unexpired VIP passes. -/
theorem can_user_scan_vip_witness :
    ((can_user_scan 5 { plan := "vip", vipExpiry := some 3 }).2.plan = "normal" ∧
      (can_user_scan 5 { plan := "vip", vipExpiry := some 3 }).2.vipExpiry = none) ∧
    (can_user_scan 0 { plan := "vip" }).1 = (true, "") := by
  refine ⟨?_, (can_user_scan_vip 0 { plan := "vip" } rfl).2 (Or.inl rfl)⟩
  have h := (can_user_scan_vip 5 { plan := "vip", vipExpiry := some 3 } rfl).1 3 rfl (by decide)
  exact ⟨h.1, h.2.1⟩



/-! ## C9: the cookie parser -/

/-- The per-line behaviour stated by C9 (the specification side of the
refinement): blank lines, `#` lines and lines with fewer than 7 tab-separated
fields are skipped; a line with exactly 7 fields yields one cookie whose
`secure` flag is set iff the fourth field uppercases to `TRUE`. -/
def cookieOfLineSpec (l : String) : Option Cookie :=
  let line := pyStrip l
  if line == "" || pyStartsWith line "#" then none
  else
    match pySplit line "\t" with
    | [domain, _subdFlag, path, secureFlag, expires, name, value] =>
      some { domain := domain, path := path, secure := pyUpper secureFlag == "TRUE",
             expires := expires, name := name, value := value }
    | _ => none

lemma list_len_seven {α : Type} (l : List α) (h : l.length = 7) :
    ∃ a b c d e f g, l = [a, b, c, d, e, f, g] := by
  rcases l with _ | ⟨a, _ | ⟨b, _ | ⟨c, _ | ⟨d, _ | ⟨e, _ | ⟨f, _ | ⟨g, rest⟩⟩⟩⟩⟩⟩⟩ <;>
    simp_all

lemma parseLineStep_skip (l : String) (r : Except String (List Cookie))
    (h1 : (pyStrip l == "" || pyStartsWith (pyStrip l) "#") = true) :
    parseLineStep l r = r := by
  unfold parseLineStep
  rw [if_pos h1]

lemma parseLineStep_short (l : String) (r : Except String (List Cookie))
    (h1 : (pyStrip l == "" || pyStartsWith (pyStrip l) "#") = false)
    (h2 : (pySplit (pyStrip l) "\t").length < 7) :
    parseLineStep l r = r := by
  unfold parseLineStep
  rw [if_neg (by simp [h1]), if_pos h2]

lemma parseLineStep_seven (l : String) (r : Except String (List Cookie))
    (a b c d e f g : String)
    (h1 : (pyStrip l == "" || pyStartsWith (pyStrip l) "#") = false)
    (hp : pySplit (pyStrip l) "\t" = [a, b, c, d, e, f, g]) :
    parseLineStep l r =
      r.map (fun cs =>
        { domain := a, path := c, secure := pyUpper d == "TRUE",
          expires := e, name := f, value := g } :: cs) := by
  unfold parseLineStep
  rw [if_neg (by simp [h1]), hp]
  rw [if_neg (by simp)]

lemma parseLineStep_long (l : String) (r : Except String (List Cookie))
    (h1 : (pyStrip l == "" || pyStartsWith (pyStrip l) "#") = false)
    (hlen : (pySplit (pyStrip l) "\t").length ≥ 8) :
    parseLineStep l r = .error "too many values to unpack (expected 7)" := by
  unfold parseLineStep
  rw [if_neg (by simp [h1])]
  rw [if_neg (by omega)]
  rcases hq : pySplit (pyStrip l) "\t" with
    _ | ⟨a, _ | ⟨b, _ | ⟨c, _ | ⟨d, _ | ⟨e, _ | ⟨f, _ | ⟨g, _ | ⟨h, t⟩⟩⟩⟩⟩⟩⟩⟩ <;>
    simp_all

lemma cookieOfLineSpec_skip (l : String)
    (h1 : (pyStrip l == "" || pyStartsWith (pyStrip l) "#") = true) :
    cookieOfLineSpec l = none := by
  unfold cookieOfLineSpec
  rw [if_pos h1]

lemma cookieOfLineSpec_notseven (l : String)
    (h1 : (pyStrip l == "" || pyStartsWith (pyStrip l) "#") = false)
    (h2 : (pySplit (pyStrip l) "\t").length ≠ 7) :
    cookieOfLineSpec l = none := by
  unfold cookieOfLineSpec
  rw [if_neg (by simp [h1])]
  rcases hq : pySplit (pyStrip l) "\t" with
    _ | ⟨a, _ | ⟨b, _ | ⟨c, _ | ⟨d, _ | ⟨e, _ | ⟨f, _ | ⟨g, _ | ⟨h, t⟩⟩⟩⟩⟩⟩⟩⟩ <;>
    simp_all

lemma cookieOfLineSpec_seven (l : String) (a b c d e f g : String)
    (h1 : (pyStrip l == "" || pyStartsWith (pyStrip l) "#") = false)
    (hp : pySplit (pyStrip l) "\t" = [a, b, c, d, e, f, g]) :
    cookieOfLineSpec l =
      some { domain := a, path := c, secure := pyUpper d == "TRUE",
             expires := e, name := f, value := g } := by
  unfold cookieOfLineSpec
  rw [if_neg (by simp [h1]), hp]

lemma parseCookieLines_ok (ls : List String)
    (h : ∀ l ∈ ls, (pySplit (pyStrip l) "\t").length ≤ 7) :
    parseCookieLines ls = .ok (ls.filterMap cookieOfLineSpec) := by
  induction ls with
  | nil => rfl
  | cons l rest ih =>
    have hl := h l (List.mem_cons_self _ _)
    have ih' := ih (fun x hx => h x (List.mem_cons_of_mem _ hx))
    have hstep : parseCookieLines (l :: rest) = parseLineStep l (parseCookieLines rest) := rfl
    rw [hstep, ih', List.filterMap_cons]
    by_cases h1 : (pyStrip l == "" || pyStartsWith (pyStrip l) "#") = true
    · rw [parseLineStep_skip _ _ h1, cookieOfLineSpec_skip _ h1]
    · have h1f : (pyStrip l == "" || pyStartsWith (pyStrip l) "#") = false := by
        simpa using h1
      by_cases h2 : (pySplit (pyStrip l) "\t").length < 7
      · rw [parseLineStep_short _ _ h1f h2, cookieOfLineSpec_notseven _ h1f (by omega)]
      · have h7 : (pySplit (pyStrip l) "\t").length = 7 := by omega
        obtain ⟨a, b, c, d, e, f, g, hp⟩ := list_len_seven _ h7
        rw [parseLineStep_seven _ _ a b c d e f g h1f hp,
            cookieOfLineSpec_seven _ a b c d e f g h1f hp]
        rfl

lemma parseCookieLines_error (ls : List String) (l : String) (hl : l ∈ ls)
    (hns : (pyStrip l == "" || pyStartsWith (pyStrip l) "#") = false)
    (hlen : (pySplit (pyStrip l) "\t").length ≥ 8) :
    ∃ e, parseCookieLines ls = .error e := by
  induction ls with
  | nil => cases hl
  | cons l0 rest ih =>
    have hstep : parseCookieLines (l0 :: rest) = parseLineStep l0 (parseCookieLines rest) := rfl
    rcases List.mem_cons.mp hl with rfl | hmem
    · exact ⟨_, by rw [hstep, parseLineStep_long _ _ hns hlen]⟩
    · obtain ⟨e, he⟩ := ih hmem
      by_cases h1 : (pyStrip l0 == "" || pyStartsWith (pyStrip l0) "#") = true
      · exact ⟨e, by rw [hstep, parseLineStep_skip _ _ h1, he]⟩
      · have h1f : (pyStrip l0 == "" || pyStartsWith (pyStrip l0) "#") = false := by
          simpa using h1
        by_cases h2 : (pySplit (pyStrip l0) "\t").length < 7
        · exact ⟨e, by rw [hstep, parseLineStep_short _ _ h1f h2, he]⟩
        · by_cases h8 : (pySplit (pyStrip l0) "\t").length ≥ 8
          · exact ⟨_, by rw [hstep, parseLineStep_long _ _ h1f h8]⟩
          · have h7 : (pySplit (pyStrip l0) "\t").length = 7 := by omega
            obtain ⟨a, b, c, d, e', f, g, hp⟩ := list_len_seven _ h7
            refine ⟨e, ?_⟩
            rw [hstep, parseLineStep_seven _ _ a b c d e' f g h1f hp, he]
            rfl



lemma scan_err_of_parse_error (re : ReOracle) (net : String → Trace)
    (content svc : String) (oc : Option String) (e : String)
    (h : parse_cookies_txt content = .error e) :
    scan_cookie_content re net content svc oc = .err ("Error scanning cookie: " ++ e) := by
  unfold scan_cookie_content
  rw [h]

/-- C9: `parse_cookies_txt` skips blank lines, `#` lines and lines with fewer
than 7 tab-separated fields, and yields one record (with `secure` true iff
the fourth field is `TRUE` case-insensitively) per line with exactly 7
fields; when no line has more than 7 fields it returns normally, while a
non-skipped line with 8 or more fields makes it raise, which
`scan_cookie_content` surfaces as a per-file error. -/
theorem parse_cookies_txt_c9 (content : String) :
    ((∀ l ∈ pySplit (pyStrip content) "\n", (pySplit (pyStrip l) "\t").length ≤ 7) →
      parse_cookies_txt content =
        .ok ((pySplit (pyStrip content) "\n").filterMap cookieOfLineSpec)) ∧
    (∀ l ∈ pySplit (pyStrip content) "\n",
      (pyStrip l == "" || pyStartsWith (pyStrip l) "#") = false →
      (pySplit (pyStrip l) "\t").length ≥ 8 →
      (∃ e, parse_cookies_txt content = .error e) ∧
      (∀ re net svc oc, ∃ m, scan_cookie_content re net content svc oc = .err m)) := by
  constructor
  · intro h
    exact parseCookieLines_ok _ h
  · intro l hl hns hlen
    obtain ⟨e, he⟩ := parseCookieLines_error _ l hl hns hlen
    have he' : parse_cookies_txt content = .error e := he
    exact ⟨⟨e, he'⟩, fun re net svc oc => ⟨_, scan_err_of_parse_error re net _ svc oc e he'⟩⟩

/-- Witness for C9: a well-formed 7-field line parses to one record; an
8-field line raises. -/
theorem parse_cookies_txt_c9_witness :
    parse_cookies_txt ".netflix.com\tTRUE\t/\ttrue\t0\tsid\tabc" =
      .ok [{ domain := ".netflix.com", path := "/", secure := true, expires := "0",
             name := "sid", value := "abc" }] ∧
    (∃ e, parse_cookies_txt "a\tb\tc\td\te\tf\tg\th" = .error e) := by
  constructor
  · rw [(parse_cookies_txt_c9 ".netflix.com\tTRUE\t/\ttrue\t0\tsid\tabc").1 (by decide)]
    rfl
  · exact ((parse_cookies_txt_c9 "a\tb\tc\td\te\tf\tg\th").2 "a\tb\tc\td\te\tf\tg\th"
      (by decide) (by decide) (by decide)).1


/-! ## C5: the dispatch tables and the all-services scan -/

lemma scan_targets_lookup : ∀ kv ∈ SCAN_TARGETS, lookupTarget kv.1 = some kv.2 := by
  decide

lemma scan_targets_fn_isSome : ∀ kv ∈ SCAN_TARGETS, (lookupTestFn kv.1).isSome = true := by
  decide

lemma lookupTarget_mem {svc : String} {target : ScanTarget}
    (h : lookupTarget svc = some target) : (svc, target) ∈ SCAN_TARGETS := by
  unfold lookupTarget at h
  rcases hf : SCAN_TARGETS.find? (fun p => p.1 == svc) with _ | ⟨k, t⟩
  · rw [hf] at h; cases h
  · rw [hf] at h
    simp only [Option.map] at h
    have hmem := List.mem_of_find?_eq_some hf
    have hkey := List.find?_some hf
    simp only [beq_iff_eq] at hkey
    cases h
    rw [hkey] at hmem
    exact hmem

/-- C5: every key of `SCAN_TARGETS` has a test function in
`SERVICE_TEST_FUNCTIONS` (the key lists agree); in an all-services scan a
service appears in the result map iff at least one parsed cookie matches one
of its configured domains (equality or suffix), and its entry records the
number of matching cookies. -/
theorem scan_all_dispatch_c5 :
    SCAN_TARGETS.map Prod.fst = SERVICE_TEST_FUNCTIONS.map Prod.fst ∧
    ∀ (re : ReOracle) (net : String → Trace) (cookies : List Cookie)
      (oc : Option String) (svc : String) (target : ScanTarget),
      lookupTarget svc = some target →
      ((∃ r, (svc, r) ∈ scanAllServices re net cookies oc) ↔
        ∃ c ∈ cookies, cookieMatchesDomain target.domains c = true) ∧
      (∀ r, (svc, r) ∈ scanAllServices re net cookies oc →
        r.cookieCount = (filter_cookies_by_domain cookies target.domains).length) := by
  refine ⟨rfl, ?_⟩
  intro re net cookies oc svc target htarget
  have hmem0 : (svc, target) ∈ SCAN_TARGETS := lookupTarget_mem htarget
  have hkeyfix : ∀ kv ∈ SCAN_TARGETS, kv.1 = svc → kv.2 = target := by
    intro kv hkv hk
    have h1 := scan_targets_lookup kv hkv
    rw [hk, htarget] at h1
    exact (Option.some_injective _ h1).symm
  have hentry : ∀ kv r, scanServiceEntry re net cookies oc kv = some (svc, r) →
      kv.1 = svc ∧
      (filter_cookies_by_domain cookies kv.2.domains).isEmpty = false ∧
      r.cookieCount = (filter_cookies_by_domain cookies kv.2.domains).length := by
    intro kv r hb
    unfold scanServiceEntry at hb
    by_cases hemp : (filter_cookies_by_domain cookies kv.2.domains).isEmpty = true
    · rw [if_pos hemp] at hb; cases hb
    · rw [if_neg hemp] at hb
      rcases hfn : lookupTestFn kv.1 with _ | f
      · rw [hfn] at hb; cases hb
      · rw [hfn] at hb
        simp only [Option.some.injEq, Prod.mk.injEq] at hb
        refine ⟨hb.1, by simpa using hemp, ?_⟩
        rw [← hb.2]
  have hentrykey : ∀ kv v, scanServiceEntry re net cookies oc kv = some v → v.1 = kv.1 := by
    intro kv v hb
    unfold scanServiceEntry at hb
    by_cases hemp : (filter_cookies_by_domain cookies kv.2.domains).isEmpty = true
    · rw [if_pos hemp] at hb; cases hb
    · rw [if_neg hemp] at hb
      rcases hfn : lookupTestFn kv.1 with _ | f
      · simp only [hfn] at hb
        cases hb
      · simp only [hfn] at hb
        cases hb
        rfl
  constructor
  · constructor
    · rintro ⟨r, hr⟩
      obtain ⟨kv, hkv, hbody⟩ := List.mem_filterMap.mp hr
      obtain ⟨hk1, hne, _⟩ := hentry kv r hbody
      have hk2 : kv.2 = target := hkeyfix kv hkv hk1
      rw [hk2] at hne
      have : filter_cookies_by_domain cookies target.domains ≠ [] := by
        intro hnil
        rw [hnil] at hne
        cases hne
      unfold filter_cookies_by_domain at this
      rcases List.exists_mem_of_ne_nil _ this with ⟨c, hc⟩
      exact ⟨c, (List.mem_filter.mp hc).1, (List.mem_filter.mp hc).2⟩
    · rintro ⟨c, hc, hmatch⟩
      have hne : filter_cookies_by_domain cookies target.domains ≠ [] := by
        intro hnil
        have := List.filter_eq_nil_iff.mp hnil c hc
        exact this hmatch
      have hemp : (filter_cookies_by_domain cookies target.domains).isEmpty = false := by
        rcases h : filter_cookies_by_domain cookies target.domains with _ | ⟨x, xs⟩
        · exact absurd h hne
        · rfl
      have hfn : (lookupTestFn svc).isSome = true := scan_targets_fn_isSome (svc, target) hmem0
      rcases hfn2 : lookupTestFn svc with _ | f
      · rw [hfn2] at hfn; cases hfn
      · have hsome : (scanServiceEntry re net cookies oc (svc, target)).isSome = true := by
          unfold scanServiceEntry
          rw [if_neg (by simp [hemp])]
          simp only [hfn2]
          rfl
        rcases hv : scanServiceEntry re net cookies oc (svc, target) with _ | ⟨v1, v2⟩
        · rw [hv] at hsome; cases hsome
        · have hv1 : v1 = svc := hentrykey (svc, target) (v1, v2) hv
          rw [hv1] at hv
          exact ⟨v2, List.mem_filterMap.mpr ⟨(svc, target), hmem0, hv⟩⟩
  · intro r hr
    obtain ⟨kv, hkv, hbody⟩ := List.mem_filterMap.mp hr
    obtain ⟨hk1, _, hcount⟩ := hentry kv r hbody
    rw [hkeyfix kv hkv hk1] at hcount
    exact hcount


/-- An oracle under which no regular expression ever matches, used for
concrete witnesses. -/
def trivialRe : ReOracle := ⟨fun _ _ => none, fun _ _ => []⟩

/-- Witness for C5: a lone Netflix cookie produces exactly a Netflix entry. -/
theorem scan_all_dispatch_c5_witness :
    ∃ r, ("netflix", r) ∈
      scanAllServices trivialRe (fun _ => [])
        [⟨".netflix.com", "/", true, "0", "sid", "abc"⟩] none :=
  ((scan_all_dispatch_c5.2 trivialRe (fun _ => [])
      [⟨".netflix.com", "/", true, "0", "sid", "abc"⟩] none "netflix"
      ⟨"https://www.netflix.com/account", "Account", [".netflix.com", "netflix.com"]⟩
      (by decide)).1).mpr
    ⟨⟨".netflix.com", "/", true, "0", "sid", "abc"⟩, by decide, by decide⟩


/-! ## C6: the subscription-plan extractors -/

lemma plan_prefix (t : String) : pyStartsWith ("Plan: " ++ t) "Plan:" = true := by
  have h : ("Plan: " : String) = "Plan:" ++ " " := by decide
  rw [h, String.append_assoc]
  exact pyStartsWith_append _ _

lemma tryPlanPattern_some (re : ReOracle) (html p r : String)
    (h : tryPlanPattern re html p = some r) :
    ∃ m, re.search p html = some m ∧ (pyStrip m).length < 50 ∧
      hasDigit (pyStrip m) = false ∧ r = "Plan: " ++ pyStrip m := by
  unfold tryPlanPattern at h
  rcases hs : re.search p html with _ | m
  · rw [hs] at h; cases h
  · rw [hs] at h
    simp only at h
    by_cases hc : ((pyStrip m).length < 50 && !hasDigit (pyStrip m)) = true
    · rw [if_pos hc] at h
      cases h
      simp only [Bool.and_eq_true, decide_eq_true_eq, Bool.not_eq_true'] at hc
      exact ⟨m, rfl, hc.1, hc.2, rfl⟩
    · rw [if_neg hc] at h
      cases h

lemma tryPlanPattern_none (re : ReOracle) (html p : String)
    (h : ∀ m, re.search p html = some m →
      ¬((pyStrip m).length < 50 ∧ hasDigit (pyStrip m) = false)) :
    tryPlanPattern re html p = none := by
  unfold tryPlanPattern
  rcases hs : re.search p html with _ | m
  · rfl
  · simp only
    rw [if_neg]
    intro hc
    simp only [Bool.and_eq_true, decide_eq_true_eq, Bool.not_eq_true'] at hc
    exact h m hs hc

lemma canvaCandidate_some (m t : String) (h : canvaCandidate m = some t) :
    t = pyStrip m ∧ 3 < t.length ∧ t.length < 50 := by
  simp only [canvaCandidate] at h
  split_ifs at h with h1 h2 h3
  · cases h
    simp only [Bool.and_eq_true, decide_eq_true_eq] at h1
    exact ⟨rfl, h1.1, h1.2⟩

/-- C6: each extractor returns a string beginning with `"Plan:"`; it returns
`"Plan: <name>"` only when some pattern matched with a stripped candidate
shorter than 50 characters passing the extractor-specific filters (no digit
for Spotify and Netflix; length above 3, no skip word, and a plan-indicator
word for Canva), and it returns `"Plan: Unknown"` when no pattern yields such
a candidate. -/
theorem extract_plan_c6 (re : ReOracle) (html : String) :
    (pyStartsWith (extract_spotify_plan re html) "Plan:" = true ∧
     pyStartsWith (extract_netflix_plan re html) "Plan:" = true ∧
     pyStartsWith (extract_canva_plan re html) "Plan:" = true) ∧
    ((extract_spotify_plan re html ≠ "Plan: Unknown" →
      ∃ p ∈ spotifyExactPlanPatterns ++ spotifySubscriptionDivPatterns, ∃ m,
        re.search p html = some m ∧ (pyStrip m).length < 50 ∧
        hasDigit (pyStrip m) = false ∧
        extract_spotify_plan re html = "Plan: " ++ pyStrip m) ∧
     ((∀ p ∈ spotifyExactPlanPatterns ++ spotifySubscriptionDivPatterns, ∀ m,
        re.search p html = some m →
        ¬((pyStrip m).length < 50 ∧ hasDigit (pyStrip m) = false)) →
      extract_spotify_plan re html = "Plan: Unknown")) ∧
    ((extract_netflix_plan re html ≠ "Plan: Unknown" →
      ∃ p ∈ netflixExactPlanPatterns ++ netflixMembershipDivPatterns, ∃ m,
        re.search p html = some m ∧ (pyStrip m).length < 50 ∧
        hasDigit (pyStrip m) = false ∧
        extract_netflix_plan re html = "Plan: " ++ pyStrip m) ∧
     ((∀ p ∈ netflixExactPlanPatterns ++ netflixMembershipDivPatterns, ∀ m,
        re.search p html = some m →
        ¬((pyStrip m).length < 50 ∧ hasDigit (pyStrip m) = false)) →
      extract_netflix_plan re html = "Plan: Unknown")) ∧
    ((extract_canva_plan re html ≠ "Plan: Unknown" →
      ∃ p ∈ canvaAutoPlanPatterns, ∃ m ∈ re.findall p html, ∃ t,
        canvaCandidate m = some t ∧ t = pyStrip m ∧ 3 < t.length ∧ t.length < 50 ∧
        extract_canva_plan re html = "Plan: " ++ t) ∧
     ((∀ p ∈ canvaAutoPlanPatterns, ∀ m ∈ re.findall p html, canvaCandidate m = none) →
      extract_canva_plan re html = "Plan: Unknown")) := by
  have hspot : ∀ r, extract_spotify_plan re html = r →
      r = "Plan: Unknown" ∨
      ∃ p ∈ spotifyExactPlanPatterns ++ spotifySubscriptionDivPatterns, ∃ m,
        re.search p html = some m ∧ (pyStrip m).length < 50 ∧
        hasDigit (pyStrip m) = false ∧ r = "Plan: " ++ pyStrip m := by
    intro r hr
    unfold extract_spotify_plan at hr
    rcases h1 : spotifyExactPlanPatterns.findSome? (tryPlanPattern re html) with _ | v
    · rw [h1] at hr
      rcases h2 : spotifySubscriptionDivPatterns.findSome? (tryPlanPattern re html) with _ | v
      · rw [h2] at hr
        exact Or.inl hr.symm
      · rw [h2] at hr
        obtain ⟨p, hp, hv⟩ := List.exists_of_findSome?_eq_some h2
        obtain ⟨m, hm, hl, hd, hrv⟩ := tryPlanPattern_some re html p v hv
        exact Or.inr ⟨p, List.mem_append.mpr (Or.inr hp), m, hm, hl, hd, hr ▸ hrv⟩
    · rw [h1] at hr
      obtain ⟨p, hp, hv⟩ := List.exists_of_findSome?_eq_some h1
      obtain ⟨m, hm, hl, hd, hrv⟩ := tryPlanPattern_some re html p v hv
      exact Or.inr ⟨p, List.mem_append.mpr (Or.inl hp), m, hm, hl, hd, hr ▸ hrv⟩
  have hnetf : ∀ r, extract_netflix_plan re html = r →
      r = "Plan: Unknown" ∨
      ∃ p ∈ netflixExactPlanPatterns ++ netflixMembershipDivPatterns, ∃ m,
        re.search p html = some m ∧ (pyStrip m).length < 50 ∧
        hasDigit (pyStrip m) = false ∧ r = "Plan: " ++ pyStrip m := by
    intro r hr
    unfold extract_netflix_plan at hr
    rcases h1 : netflixExactPlanPatterns.findSome? (tryPlanPattern re html) with _ | v
    · rw [h1] at hr
      rcases h2 : netflixMembershipDivPatterns.findSome? (tryPlanPattern re html) with _ | v
      · rw [h2] at hr
        exact Or.inl hr.symm
      · rw [h2] at hr
        obtain ⟨p, hp, hv⟩ := List.exists_of_findSome?_eq_some h2
        obtain ⟨m, hm, hl, hd, hrv⟩ := tryPlanPattern_some re html p v hv
        exact Or.inr ⟨p, List.mem_append.mpr (Or.inr hp), m, hm, hl, hd, hr ▸ hrv⟩
    · rw [h1] at hr
      obtain ⟨p, hp, hv⟩ := List.exists_of_findSome?_eq_some h1
      obtain ⟨m, hm, hl, hd, hrv⟩ := tryPlanPattern_some re html p v hv
      exact Or.inr ⟨p, List.mem_append.mpr (Or.inl hp), m, hm, hl, hd, hr ▸ hrv⟩
  have hcanva : ∀ r, extract_canva_plan re html = r →
      r = "Plan: Unknown" ∨
      ∃ p ∈ canvaAutoPlanPatterns, ∃ m ∈ re.findall p html, ∃ t,
        canvaCandidate m = some t ∧ t = pyStrip m ∧ 3 < t.length ∧ t.length < 50 ∧
        r = "Plan: " ++ t := by
    intro r hr
    unfold extract_canva_plan at hr
    rcases hd : canvaAutoPlanPatterns.flatMap
        (fun pat => (re.findall pat html).filterMap canvaCandidate) with _ | ⟨t, ts⟩
    · rw [hd] at hr
      exact Or.inl hr.symm
    · rw [hd] at hr
      have hmem : t ∈ canvaAutoPlanPatterns.flatMap
          (fun pat => (re.findall pat html).filterMap canvaCandidate) := by
        rw [hd]; exact List.mem_cons_self _ _
      obtain ⟨p, hp, hin⟩ := List.mem_flatMap.mp hmem
      obtain ⟨m, hm, hc⟩ := List.mem_filterMap.mp hin
      obtain ⟨ht, h3, h50⟩ := canvaCandidate_some m t hc
      exact Or.inr ⟨p, hp, m, hm, t, hc, ht, h3, h50, hr.symm⟩
  refine ⟨⟨?_, ?_, ?_⟩, ⟨?_, ?_⟩, ⟨?_, ?_⟩, ⟨?_, ?_⟩⟩
  · rcases hspot _ rfl with h | ⟨p, _, m, _, _, _, h⟩ <;> rw [h]
    · decide
    · exact plan_prefix _
  · rcases hnetf _ rfl with h | ⟨p, _, m, _, _, _, h⟩ <;> rw [h]
    · decide
    · exact plan_prefix _
  · rcases hcanva _ rfl with h | ⟨p, _, m, _, t, _, _, _, _, h⟩ <;> rw [h]
    · decide
    · exact plan_prefix _
  · intro hne
    rcases hspot _ rfl with h | hex
    · exact absurd h hne
    · exact hex
  · intro hall
    unfold extract_spotify_plan
    rw [List.findSome?_eq_none_iff.mpr, List.findSome?_eq_none_iff.mpr]
    · intro p hp
      exact tryPlanPattern_none re html p
        (fun m hm => hall p (List.mem_append.mpr (Or.inr hp)) m hm)
    · intro p hp
      exact tryPlanPattern_none re html p
        (fun m hm => hall p (List.mem_append.mpr (Or.inl hp)) m hm)
  · intro hne
    rcases hnetf _ rfl with h | hex
    · exact absurd h hne
    · exact hex
  · intro hall
    unfold extract_netflix_plan
    rw [List.findSome?_eq_none_iff.mpr, List.findSome?_eq_none_iff.mpr]
    · intro p hp
      exact tryPlanPattern_none re html p
        (fun m hm => hall p (List.mem_append.mpr (Or.inr hp)) m hm)
    · intro p hp
      exact tryPlanPattern_none re html p
        (fun m hm => hall p (List.mem_append.mpr (Or.inl hp)) m hm)
  · intro hne
    rcases hcanva _ rfl with h | hex
    · exact absurd h hne
    · exact hex
  · intro hall
    unfold extract_canva_plan
    rw [show canvaAutoPlanPatterns.flatMap
        (fun pat => (re.findall pat html).filterMap canvaCandidate) = [] from
      List.flatMap_eq_nil_iff.mpr
        (fun p hp => List.filterMap_eq_nil_iff.mpr (fun m hm => hall p hp m hm))]

/-- Witness for C6: with an oracle that never matches, every extractor
returns `"Plan: Unknown"`, which begins with `"Plan:"`. -/
theorem extract_plan_c6_witness :
    extract_spotify_plan trivialRe "" = "Plan: Unknown" ∧
    extract_netflix_plan trivialRe "" = "Plan: Unknown" ∧
    pyStartsWith (extract_canva_plan trivialRe "") "Plan:" = true :=
  ⟨(extract_plan_c6 trivialRe "").2.1.2 (fun _ _ m hm => by cases hm),
   (extract_plan_c6 trivialRe "").2.2.1.2 (fun _ _ m hm => by cases hm),
   (extract_plan_c6 trivialRe "").1.2.2⟩


/-! ## C7: the worker pool -/

lemma stepAgg_processed (svc : String) (st : AggState) (item : String × ScanOutcome) :
    (stepAgg svc st item).processedFiles = st.processedFiles + 1 := by
  unfold stepAgg
  rcases item with ⟨n, out⟩
  rcases out with m | rs | r <;> dsimp only <;> split_ifs <;> rfl

lemma foldl_stepAgg_processed (svc : String) (items : List (String × ScanOutcome))
    (st : AggState) :
    (items.foldl (stepAgg svc) st).processedFiles = st.processedFiles + items.length := by
  induction items generalizing st with
  | nil => rfl
  | cons item rest ih =>
    rw [List.foldl_cons, ih, stepAgg_processed]
    simp only [List.length_cons]
    omega

/-- C7: the worker pool is created with `max_workers=10`; the jobs submitted
to it are exactly one `process_single_file` call per entry of
`files_to_process` (one per `.txt` member of the archive); and however the
completed futures are permuted, the number of processed files equals the
number of submitted jobs, which is also the file count `len(names)` printed
in the summary header. -/
theorem worker_pool_c7 (re : ReOracle) (net : String → String → Trace) (svc : String)
    (entries : List ZipEntry) (completed : List (String × ScanOutcome))
    (hperm : completed.Perm (submittedJobs re net svc entries)) :
    MAX_WORKERS = 10 ∧
    submittedJobs re net svc entries =
      (filesToProcess entries).map (fun nc => process_single_file re net nc.1 nc.2 svc) ∧
    (aggregate svc completed).processedFiles = (filesToProcess entries).length ∧
    summaryHeaderCount entries = (filesToProcess entries).length := by
  refine ⟨rfl, rfl, ?_, ?_⟩
  · unfold aggregate
    rw [foldl_stepAgg_processed]
    have h1 : completed.length = (submittedJobs re net svc entries).length :=
      hperm.length_eq
    unfold submittedJobs at h1
    rw [List.length_map] at h1
    simpa using h1
  · unfold summaryHeaderCount txtNames filesToProcess
    rw [List.length_map, List.length_map]

/-- Witness for C7: three zip members, two of them `.txt`, processed in
reversed completion order. -/
theorem worker_pool_c7_witness :
    MAX_WORKERS = 10 ∧
    (aggregate "netflix" ((submittedJobs trivialRe (fun _ _ => []) "netflix"
        [⟨"a.txt", "x"⟩, ⟨"sub/b.txt", "y"⟩, ⟨"c.jpg", "z"⟩]).reverse)).processedFiles = 2 := by
  have h := worker_pool_c7 trivialRe (fun _ _ => []) "netflix"
      [⟨"a.txt", "x"⟩, ⟨"sub/b.txt", "y"⟩, ⟨"c.jpg", "z"⟩] _ (List.reverse_perm _)
  refine ⟨h.1, ?_⟩
  rw [h.2.2.1]
  decide


/-! ## Status sets of the test functions (used by C1 and C8) -/

def statusValues : List String := ["success", "dead", "unknown", "no_cookies", "error"]

lemma test_roblox_status (cs : List Cookie) (tr : Trace) :
    (test_roblox_login cs tr).status ∈ statusValues := by
  rcases h : (takeEvent tr).1 with r | _ | m | m <;>
    simp only [test_roblox_login, h] <;> (try split_ifs) <;> simp [statusValues]

lemma test_instagram_status (cs : List Cookie) (tr : Trace) :
    (test_instagram_login cs tr).status ∈ statusValues := by
  rcases h : (takeEvent tr).1 with r | _ | m | m <;>
    simp only [test_instagram_login, h] <;> (try split_ifs) <;> simp [statusValues]

lemma test_facebook_status (cs : List Cookie) (tr : Trace) :
    (test_facebook_login cs tr).status ∈ statusValues := by
  rcases h : (takeEvent tr).1 with r | _ | m | m <;>
    simp only [test_facebook_login, h] <;> (try split_ifs) <;> simp [statusValues]

lemma test_canva_status (re : ReOracle) (cs : List Cookie) (tr : Trace) :
    (test_canva_login re cs tr).status ∈ statusValues := by
  rcases h : (takeEvent tr).1 with r | _ | m | m <;>
    simp only [test_canva_login, h] <;> (try split_ifs) <;> simp [statusValues]

lemma test_linkedin_status (cs : List Cookie) (tr : Trace) (r : TestResult)
    (h : test_linkedin_login cs tr = some r) : r.status ∈ statusValues := by
  rcases he : (takeEvent tr).1 with rr | _ | m | m <;>
    simp only [test_linkedin_login, he] at h <;> (try split_ifs at h) <;>
    (try cases h) <;> simp [statusValues]

lemma test_amazon_status (cs : List Cookie) (tr : Trace) (r : TestResult)
    (h : test_amazon_login cs tr = some r) : r.status ∈ statusValues := by
  rcases he : (takeEvent tr).1 with rr | _ | m | m <;>
    simp only [test_amazon_login, he] at h <;> (try split_ifs at h) <;>
    (try cases h) <;> simp [statusValues]

lemma test_wordpress_status (re : ReOracle) (cs : List Cookie) (tr : Trace) :
    (test_wordpress_login re cs tr).status ∈ statusValues := by
  rcases h : (takeEvent tr).1 with r | _ | m | m <;>
    simp only [test_wordpress_login, h] <;> (try split_ifs) <;> simp [statusValues]

lemma test_youtube_status (cs : List Cookie) (tr : Trace) :
    (test_youtube_login cs tr).status ∈ statusValues := by
  rcases h : (takeEvent tr).1 with r | _ | m | m <;>
    simp only [test_youtube_login, h] <;> (try split_ifs) <;> simp [statusValues]

lemma test_capcut_status (re : ReOracle) (cs : List Cookie) (tr : Trace) :
    (test_capcut_login re cs tr).status ∈ statusValues := by
  rcases h : (takeEvent tr).1 with r | _ | m | m <;>
    simp only [test_capcut_login, h] <;> (try split_ifs) <;> simp [statusValues]

lemma testGenericTarget_status (re : ReOracle) (cs : List Cookie)
    (url : String) (tr : Trace) (rr : TestResult)
    (hg : testGenericTarget re cs url tr = some rr) :
    rr.status ∈ statusValues := by
  unfold testGenericTarget at hg
  rcases hte : takeEvent tr with ⟨e, tr1⟩
  rw [hte] at hg
  rcases e with rsp | _ | m | m <;> simp only at hg <;>
    (try (cases hg; simp [statusValues]; done))
  split_ifs at hg <;> (try (cases hg; simp [statusValues]; done))
  cases hg
  exact test_canva_status re cs tr1

set_option maxHeartbeats 1000000 in
lemma test_cookies_with_target_status (re : ReOracle) (cs : List Cookie)
    (url ct : String) (tr : Trace) (r : TestResult)
    (h : test_cookies_with_target re cs url ct tr = some r) :
    r.status ∈ statusValues := by
  unfold test_cookies_with_target at h
  split_ifs at h with h1 h2 h3 h4 h5 h6 h7 h8 h9
  · cases h; simp [statusValues]
  · cases h; exact test_roblox_status cs tr
  · cases h; exact test_instagram_status cs tr
  · cases h; exact test_youtube_status cs tr
  · exact test_linkedin_status cs tr r h
  · exact test_amazon_status cs tr r h
  · cases h; exact test_wordpress_status re cs tr
  · cases h; exact test_capcut_status re cs tr
  · simp only at h
    split_ifs at h with hmiss
    · cases h; simp [statusValues]
    · cases h; exact test_facebook_status cs tr
  · exact testGenericTarget_status re cs url tr r h

lemma lookupTestFn_status (k : String) (f : TestFn) (h : lookupTestFn k = some f)
    (re : ReOracle) (cs : List Cookie) (tr : Trace) (r : TestResult)
    (hr : f re cs tr = some r) : r.status ∈ statusValues := by
  have hmem : ∃ p ∈ SERVICE_TEST_FUNCTIONS, p.2 = f := by
    unfold lookupTestFn at h
    rcases hf : SERVICE_TEST_FUNCTIONS.find? (fun p => p.1 == k) with _ | p
    · rw [hf] at h; cases h
    · rw [hf] at h
      simp only [Option.map] at h
      exact ⟨p, List.mem_of_find?_eq_some hf, by injection h⟩
  obtain ⟨p, hp, hpf⟩ := hmem
  rw [← hpf] at hr
  simp only [SERVICE_TEST_FUNCTIONS, List.mem_cons, List.not_mem_nil, or_false] at hp
  rcases hp with rfl | rfl | rfl | rfl | rfl | rfl | rfl | rfl | rfl | rfl | rfl | rfl <;>
    simp only at hr
  · exact test_cookies_with_target_status re cs _ _ tr r hr
  · exact test_cookies_with_target_status re cs _ _ tr r hr
  · exact test_cookies_with_target_status re cs _ _ tr r hr
  · cases hr; exact test_facebook_status cs tr
  · cases hr; exact test_canva_status re cs tr
  · cases hr; exact test_roblox_status cs tr
  · cases hr; exact test_instagram_status cs tr
  · cases hr; exact test_youtube_status cs tr
  · exact test_linkedin_status cs tr r hr
  · exact test_amazon_status cs tr r hr
  · cases hr; exact test_wordpress_status re cs tr
  · cases hr; exact test_capcut_status re cs tr

lemma runTestFn_status (k : String) (f : TestFn) (h : lookupTestFn k = some f)
    (re : ReOracle) (cs : List Cookie) (tr : Trace) :
    ((f re cs tr).getD unknownFallback).status ∈ statusValues := by
  rcases hr : f re cs tr with _ | r
  · simp [unknownFallback, statusValues]
  · simpa using lookupTestFn_status k f h re cs tr r hr

/-! ## C8: `scan_cookie_content` always returns a well-formed outcome -/

/-- C8: for every input string and service name, `scan_cookie_content`
returns a value: an error outcome (in particular when no cookie line parses,
when the service is unknown, or when no cookie matches the service's
domains), or, for service `'all'`, the per-service result map, or otherwise
a single result whose status is one of `'success'`, `'dead'`, `'unknown'`,
`'no_cookies'`, `'error'`. -/
theorem scan_outcome_c8 (re : ReOracle) (net : String → Trace)
    (content svcName : String) (oc : Option String) :
    (∃ m, scan_cookie_content re net content svcName oc = .err m) ∨
    (svcName = "all" ∧ ∃ rs, scan_cookie_content re net content svcName oc = .all rs) ∨
    (∃ r, scan_cookie_content re net content svcName oc = .single r ∧
      r.res.status ∈ statusValues) := by
  unfold scan_cookie_content
  rcases hp : parse_cookies_txt content with e | cookies
  · exact Or.inl ⟨_, rfl⟩
  · dsimp only
    split_ifs with h1 h2
    · exact Or.inl ⟨_, rfl⟩
    · exact Or.inr (Or.inl ⟨by simpa using h2, _, rfl⟩)
    · rcases ht : lookupTarget svcName with _ | target
      · exact Or.inl ⟨_, rfl⟩
      · dsimp only
        split_ifs with h3
        · exact Or.inl ⟨_, rfl⟩
        · rcases hf : lookupTestFn svcName with _ | f
          · exact Or.inl ⟨_, rfl⟩
          · exact Or.inr (Or.inr ⟨_, rfl, runTestFn_status svcName f hf re _ (net svcName)⟩)


/-! ## C1: the set of reported verdicts -/

lemma pyStartsWith_refl (s : String) : pyStartsWith s s = true := by
  unfold pyStartsWith
  rw [List.isPrefixOf_iff_prefix]

lemma pyStartsWith_append_of (s t u : String) (h : pyStartsWith t s = true) :
    pyStartsWith (t ++ u) s = true := by
  unfold pyStartsWith at h ⊢
  rw [String.data_append]
  rw [List.isPrefixOf_iff_prefix] at h ⊢
  exact h.trans (List.prefix_append _ _)

/-- The result of `OutlookChecker.check` begins with one of the four verdict
markers. -/
def outlookPrefixOk (s : String) : Prop :=
  pyStartsWith s "✅ HIT" = true ∨ pyStartsWith s "🆓 FREE" = true ∨
  pyStartsWith s "❌ BAD" = true ∨ pyStartsWith s "❌ ERROR" = true

lemma outlookSuffix_startsWith (base n c b : String) :
    pyStartsWith (outlookSuffix base n c b) base = true := by
  unfold outlookSuffix
  split_ifs <;> (repeat' apply pyStartsWith_append_of) <;> exact pyStartsWith_refl _

lemma errorStartsWith (m : String) : pyStartsWith ("❌ ERROR: " ++ m) "❌ ERROR" = true := by
  apply pyStartsWith_append_of
  decide

lemma outlookExcept_ok (e : NetEvent) : outlookPrefixOk (outlookExcept e) := by
  rcases e with r | _ | m | m <;> simp only [outlookExcept, eventMsg]
  · exact Or.inr (Or.inr (Or.inr (errorStartsWith _)))
  · exact Or.inr (Or.inr (Or.inl (by decide)))
  · exact Or.inr (Or.inr (Or.inl (by decide)))
  · exact Or.inr (Or.inr (Or.inr (errorStartsWith _)))

lemma outlookStep6_ok (kws : List String) (n c b : String) (tr : Trace) :
    outlookPrefixOk (outlookStep6 kws n c b tr) := by
  unfold outlookStep6
  rcases (takeEvent tr).1 with r6 | _ | m | m <;> simp only
  · split_ifs
    · exact Or.inr (Or.inl (outlookSuffix_startsWith _ _ _ _))
    · refine Or.inl ?_
      have h := outlookSuffix_startsWith
        ("✅ HIT" ++ " | Found: " ++ joinComma ((kws.filterMap (fun kw =>
          let count := pyCount (pyLower r6.text) (pyLower kw)
          if count > 0 then some (kw, count) else none)).map
            (fun kc => kc.1 ++ " (" ++ toString kc.2 ++ ")"))) n c b
      unfold pyStartsWith at h ⊢
      rw [List.isPrefixOf_iff_prefix] at h ⊢
      refine List.IsPrefix.trans ?_ h
      rw [String.data_append, String.data_append]
      exact (List.prefix_append _ _).trans (List.prefix_append _ _)
  · exact Or.inr (Or.inr (Or.inl (by decide)))
  · exact Or.inr (Or.inr (Or.inl (by decide)))
  · exact Or.inr (Or.inr (Or.inl (by decide)))

lemma outlookStep5_ok (jf : String → String → Option String) (kws : List String)
    (tr : Trace) : outlookPrefixOk (outlookStep5 jf kws tr) := by
  unfold outlookStep5
  rcases htk : takeEvent tr with ⟨e, tr5⟩
  rcases e with r5 | _ | m | m <;> simp only
  · split_ifs <;>
      first
        | exact Or.inr (Or.inr (Or.inl (by decide)))
        | exact outlookStep6_ok _ _ _ _ _
  · exact outlookExcept_ok _
  · exact outlookExcept_ok _
  · exact outlookExcept_ok _

lemma outlookStep4_ok (jf : String → String → Option String) (kws : List String)
    (tr : Trace) : outlookPrefixOk (outlookStep4 jf kws tr) := by
  unfold outlookStep4
  rcases htk : takeEvent tr with ⟨e, tr4⟩
  rcases e with r4 | _ | m | m <;> simp only
  · split_ifs
    · exact Or.inr (Or.inr (Or.inl (by decide)))
    · rcases jf r4.text "access_token" with _ | tok <;> simp only
      · exact Or.inr (Or.inr (Or.inr (by decide)))
      · exact outlookStep5_ok _ _ _
  · exact outlookExcept_ok _
  · exact outlookExcept_ok _
  · exact outlookExcept_ok _

lemma outlookStep3_ok (re : ReOracle) (jf : String → String → Option String)
    (kws : List String) (mspcid : String) (tr : Trace) :
    outlookPrefixOk (outlookStep3 re jf kws mspcid tr) := by
  unfold outlookStep3
  rcases htk : takeEvent tr with ⟨e, tr3⟩
  rcases e with r3 | _ | m | m <;> simp only
  · by_cases c1 : (strContains r3.text "account or password is incorrect" ||
        strContains (pyLower r3.text) "error") = true
    · rw [if_pos c1]
      exact Or.inr (Or.inr (Or.inl (by decide)))
    · rw [if_neg c1]
      by_cases c2 : strContains r3.text "https://account.live.com/identity/confirm" = true
      · rw [if_pos c2]
        exact Or.inr (Or.inr (Or.inl (by decide)))
      · rw [if_neg c2]
        by_cases c3 : strContains r3.text "https://account.live.com/Abuse" = true
        · rw [if_pos c3]
          exact Or.inr (Or.inr (Or.inl (by decide)))
        · rw [if_neg c3]
          by_cases c4 : (r3.location == "") = true
          · rw [if_pos c4]
            exact Or.inr (Or.inr (Or.inl (by decide)))
          · rw [if_neg c4]
            rcases re.search authCodePattern r3.location with _ | code <;> simp only
            · exact Or.inr (Or.inr (Or.inl (by decide)))
            · by_cases c5 : (mspcid == "") = true
              · rw [if_pos c5]
                exact Or.inr (Or.inr (Or.inl (by decide)))
              · rw [if_neg c5]
                exact outlookStep4_ok _ _ _
  · exact outlookExcept_ok _
  · exact outlookExcept_ok _
  · exact outlookExcept_ok _

lemma outlookStep2_ok (re : ReOracle) (jf : String → String → Option String)
    (kws : List String) (mspcid : String) (tr : Trace) :
    outlookPrefixOk (outlookStep2 re jf kws mspcid tr) := by
  unfold outlookStep2
  rcases htk : takeEvent tr with ⟨e, tr2⟩
  rcases e with r2 | _ | m | m <;> simp only
  · rcases re.search urlPostPattern r2.text with _ | u <;>
      rcases re.search ppftPattern r2.text with _ | p <;> simp only
    · exact Or.inr (Or.inr (Or.inl (by decide)))
    · exact Or.inr (Or.inr (Or.inl (by decide)))
    · exact Or.inr (Or.inr (Or.inl (by decide)))
    · exact outlookStep3_ok _ _ _ _ _
  · exact outlookExcept_ok _
  · exact outlookExcept_ok _
  · exact outlookExcept_ok _

lemma outlookCheck_ok (re : ReOracle) (jf : String → String → Option String)
    (kws : List String) (mspcid em pw : String) (tr : Trace) :
    outlookPrefixOk (outlookCheck re jf kws mspcid em pw tr) := by
  unfold outlookCheck
  rcases htk : takeEvent tr with ⟨e, tr1⟩
  rcases e with r1 | _ | m | m <;> simp only
  · split_ifs
    · exact Or.inr (Or.inr (Or.inl (by decide)))
    · exact Or.inr (Or.inr (Or.inl (by decide)))
    · exact outlookStep2_ok _ _ _ _ _
  · exact outlookExcept_ok _
  · exact outlookExcept_ok _
  · exact outlookExcept_ok _

/-- C1 counterexample: a cookie file checked against Facebook with a
`.facebook.com` cookie that is not `c_user`/`xs` is reported `no_cookies`,
which is none of LIVE (`success`), DEAD (`dead`), UNKNOWN (`unknown`); its
user-facing text is the dedicated no-cookies message. -/
theorem verdicts_c1_counterexample :
    (test_cookies_with_target trivialRe [⟨".facebook.com", "/", true, "0", "foo", "bar"⟩]
        "https://www.facebook.com/settings" "Settings" []).map TestResult.status =
      some "no_cookies" ∧
    ¬("no_cookies" = "success" ∨ "no_cookies" = "dead" ∨ "no_cookies" = "unknown") ∧
    get_status_text "no_cookies" = "No cookies found for this service." := by
  refine ⟨by decide, by decide, by decide⟩

/-- C1 (amended): every result dictionary returned by
`test_cookies_with_target` carries a status among `'success'`, `'dead'`,
`'unknown'`, `'no_cookies'`, `'error'` (five verdicts, not three), and
`OutlookChecker.check` returns a string beginning with `✅ HIT`, `🆓 FREE`,
`❌ BAD` or `❌ ERROR` rather than LIVE/DEAD/UNKNOWN. -/
theorem verdicts_c1_amended :
    (∀ (re : ReOracle) (cs : List Cookie) (url ct : String) (tr : Trace) (r : TestResult),
      test_cookies_with_target re cs url ct tr = some r → r.status ∈ statusValues) ∧
    (∀ (re : ReOracle) (jf : String → String → Option String) (kws : List String)
      (mspcid em pw : String) (tr : Trace),
      outlookPrefixOk (outlookCheck re jf kws mspcid em pw tr)) :=
  ⟨fun re cs url ct tr r h => test_cookies_with_target_status re cs url ct tr r h,
   fun re jf kws mspcid em pw tr => outlookCheck_ok re jf kws mspcid em pw tr⟩

/-- Witness for the amended C1 at concrete inputs. -/
theorem verdicts_c1_amended_witness :
    ("no_cookies" ∈ statusValues) ∧
    outlookPrefixOk (outlookCheck trivialRe (fun _ _ => none) [] "" "a@b.c" "pw" []) :=
  ⟨verdicts_c1_amended.1 trivialRe [⟨".facebook.com", "/", true, "0", "foo", "bar"⟩]
      "https://www.facebook.com/settings" "Settings" []
      { status := "no_cookies",
        message := "Not enough Facebook cookies (missing: c_user, xs)",
        finalUrl := some "https://www.facebook.com/settings", statusCode := some 200 }
      (by decide),
   verdicts_c1_amended.2 trivialRe (fun _ _ => none) [] "" "a@b.c" "pw" []⟩


/-! ## C3: the live-cookies archive -/

lemma mem_lookupList_addTo {α : Type} (m : List (String × List α)) (k k' : String)
    (v x : α) :
    x ∈ lookupList (addTo m k v) k' ↔
      x ∈ lookupList m k' ∨ (k' = k ∧ x = v) := by
  induction m with
  | nil =>
    unfold addTo lookupList
    by_cases hk : k = k'
    · subst hk
      simp
    · rw [if_neg (by simpa using hk)]
      have hk2 : ¬(k' = k) := fun h => hk h.symm
      simp [lookupList, hk2]
  | cons kv rest ih =>
    rcases kv with ⟨k0, vs⟩
    unfold addTo
    by_cases h0 : k0 = k
    · rw [if_pos (by simpa using h0)]
      subst h0
      unfold lookupList
      by_cases hk : k0 = k'
      · rw [if_pos (by simpa using hk), if_pos (by simpa using hk)]
        subst hk
        simp [or_comm]
      · rw [if_neg (by simpa using hk), if_neg (by simpa using hk)]
        have hk2 : ¬(k' = k0) := fun h => hk h.symm
        simp [hk2]
    · rw [if_neg (by simpa using h0)]
      unfold lookupList
      by_cases hk : k0 = k'
      · rw [if_pos (by simpa using hk), if_pos (by simpa using hk)]
        have : ¬(k' = k) := by
          intro h
          exact h0 (hk.trans h)
        simp [this]
      · rw [if_neg (by simpa using hk), if_neg (by simpa using hk)]
        exact ih

lemma mem_lookupList_foldl_all {α : Type} (fileName : String)
    (rs : List (String × α)) (statusOk : α → Bool)
    (lc : List (String × List (String × α))) (s : String) (x : String × α) :
    x ∈ lookupList (rs.foldl (fun lc sr =>
        if statusOk sr.2 then addTo lc sr.1 (fileName, sr.2) else lc) lc) s ↔
      x ∈ lookupList lc s ∨
        ∃ sr ∈ rs, statusOk sr.2 = true ∧ s = sr.1 ∧ x = (fileName, sr.2) := by
  induction rs generalizing lc with
  | nil => simp
  | cons sr rest ih =>
    rw [List.foldl_cons]
    by_cases hst : statusOk sr.2 = true
    · rw [if_pos hst, ih, mem_lookupList_addTo]
      constructor
      · rintro ((h | h) | ⟨sr', h1, h2, h3, h4⟩)
        · exact Or.inl h
        · exact Or.inr ⟨sr, List.mem_cons_self _ _, hst, h.1, h.2⟩
        · exact Or.inr ⟨sr', List.mem_cons_of_mem _ h1, h2, h3, h4⟩
      · rintro (h | ⟨sr', h1, h2, h3, h4⟩)
        · exact Or.inl (Or.inl h)
        · rcases List.mem_cons.mp h1 with rfl | h1'
          · exact Or.inl (Or.inr ⟨h3, h4⟩)
          · exact Or.inr ⟨sr', h1', h2, h3, h4⟩
    · rw [if_neg hst, ih]
      constructor
      · rintro (h | ⟨sr', h1, h2, h3, h4⟩)
        · exact Or.inl h
        · exact Or.inr ⟨sr', List.mem_cons_of_mem _ h1, h2, h3, h4⟩
      · rintro (h | ⟨sr', h1, h2, h3, h4⟩)
        · exact Or.inl h
        · rcases List.mem_cons.mp h1 with rfl | h1'
          · exact absurd h2 hst
          · exact Or.inr ⟨sr', h1', h2, h3, h4⟩


/-- The condition under which the completed item `item` inserts the pair `x`
under key `s` into `live_cookies` (lines 1427-1439). -/
def liveContrib (svc s : String) (x : String × ScanServiceResult)
    (item : String × ScanOutcome) : Prop :=
  (svc = "all" ∧ ∃ sr ∈ allResultsOf item.2, sr.2.res.status = "success" ∧
      s = sr.1 ∧ x = (item.1, sr.2)) ∨
  (¬svc = "all" ∧ s = svc ∧ ∃ r, item.2 = .single r ∧ r.res.status = "success" ∧
      x = (item.1, r))

lemma stepAgg_live_mem (svc : String) (st : AggState) (item : String × ScanOutcome)
    (s : String) (x : String × ScanServiceResult) :
    x ∈ lookupList (stepAgg svc st item).liveCookies s ↔
      x ∈ lookupList st.liveCookies s ∨ liveContrib svc s x item := by
  rcases item with ⟨n, out⟩
  unfold stepAgg liveContrib
  rcases out with m | rs | r <;> dsimp only
  · simp [allResultsOf]
  · by_cases hsvc : (svc == "all") = true
    · rw [if_pos hsvc]
      dsimp only
      have hsvc' : svc = "all" := by simpa using hsvc
      simp only [allResultsOf]
      rw [mem_lookupList_foldl_all n rs (fun a => a.res.status == "success")]
      constructor
      · rintro (h | ⟨sr, h1, h2, h3, h4⟩)
        · exact Or.inl h
        · exact Or.inr (Or.inl ⟨hsvc', sr, h1, by simpa using h2, h3, h4⟩)
      · rintro (h | ⟨_, sr, h1, h2, h3, h4⟩ | ⟨hB, _⟩)
        · exact Or.inl h
        · exact Or.inr ⟨sr, h1, by simpa using h2, h3, h4⟩
        · exact absurd hsvc' hB
    · rw [if_neg hsvc]
      dsimp only [statusOf]
      rw [if_neg (by simp)]
      have hsvc' : ¬svc = "all" := by simpa using hsvc
      simp [allResultsOf, hsvc']
  · by_cases hsvc : (svc == "all") = true
    · rw [if_pos hsvc]
      have hsvc' : svc = "all" := by simpa using hsvc
      simp [allResultsOf, hsvc']
    · rw [if_neg hsvc]
      dsimp only [statusOf]
      have hsvc' : ¬svc = "all" := by simpa using hsvc
      by_cases hst : (some r.res.status == some "success") = true
      · rw [if_pos hst]
        dsimp only
        rw [mem_lookupList_addTo]
        have hst' : r.res.status = "success" := by simpa using hst
        constructor
        · rintro (h | ⟨h1, h2⟩)
          · exact Or.inl h
          · exact Or.inr (Or.inr ⟨hsvc', h1, r, rfl, hst', h2⟩)
        · rintro (h | ⟨hA, _⟩ | ⟨_, h1, r', hr', _, h3⟩)
          · exact Or.inl h
          · exact absurd hA hsvc'
          · cases hr'
            exact Or.inr ⟨h1, h3⟩
      · rw [if_neg hst]
        have hst' : ¬r.res.status = "success" := by simpa using hst
        constructor
        · intro h
          exact Or.inl h
        · rintro (h | ⟨hA, _⟩ | ⟨_, _, r', hr', hst2, _⟩)
          · exact h
          · exact absurd hA hsvc'
          · cases hr'
            exact absurd hst2 hst'

lemma aggregate_live_mem (svc : String) (items : List (String × ScanOutcome))
    (s : String) (x : String × ScanServiceResult) :
    x ∈ lookupList (aggregate svc items).liveCookies s ↔
      ∃ item ∈ items, liveContrib svc s x item := by
  suffices h : ∀ st : AggState,
      x ∈ lookupList (items.foldl (stepAgg svc) st).liveCookies s ↔
        x ∈ lookupList st.liveCookies s ∨ ∃ item ∈ items, liveContrib svc s x item by
    have h2 := h {}
    unfold aggregate
    rw [h2]
    simp [lookupList]
  intro st
  induction items generalizing st with
  | nil => simp
  | cons item rest ih =>
    rw [List.foldl_cons, ih, stepAgg_live_mem]
    constructor
    · rintro ((h | h) | ⟨it, h1, h2⟩)
      · exact Or.inl h
      · exact Or.inr ⟨item, List.mem_cons_self _ _, h⟩
      · exact Or.inr ⟨it, List.mem_cons_of_mem _ h1, h2⟩
    · rintro (h | ⟨it, h1, h2⟩)
      · exact Or.inl (Or.inl h)
      · rcases List.mem_cons.mp h1 with rfl | h1'
        · exact Or.inl (Or.inr h2)
        · exact Or.inr ⟨it, h1', h2⟩


def keysNodup {α : Type} (m : List (String × α)) : Prop :=
  (m.map Prod.fst).Nodup

lemma mem_keys_addTo {α : Type} (m : List (String × List α)) (k v s) :
    s ∈ (addTo m k v).map Prod.fst ↔ s ∈ m.map Prod.fst ∨ s = k := by
  induction m with
  | nil => simp [addTo]
  | cons kv rest ih =>
    rcases kv with ⟨k0, vs⟩
    unfold addTo
    by_cases h0 : k0 = k
    · subst h0
      rw [if_pos (by simp)]
      simp only [List.map_cons, List.mem_cons]
      constructor
      · rintro (rfl | h)
        · exact Or.inr rfl
        · exact Or.inl (Or.inr h)
      · rintro ((rfl | h) | rfl)
        · exact Or.inl rfl
        · exact Or.inr h
        · exact Or.inl rfl
    · rw [if_neg (by simpa using h0)]
      simp only [List.map_cons, List.mem_cons, ih]
      tauto

lemma keysNodup_addTo {α : Type} (m : List (String × List α)) (k v)
    (h : keysNodup m) : keysNodup (addTo m k v) := by
  induction m with
  | nil => simp [addTo, keysNodup]
  | cons kv rest ih =>
    rcases kv with ⟨k0, vs⟩
    unfold keysNodup at h ⊢
    simp only [List.map_cons, List.nodup_cons] at h
    unfold addTo
    by_cases h0 : k0 = k
    · subst h0
      rw [if_pos (by simp)]
      simp only [List.map_cons, List.nodup_cons]
      exact h
    · rw [if_neg (by simpa using h0)]
      simp only [List.map_cons, List.nodup_cons]
      refine ⟨?_, ih h.2⟩
      rw [mem_keys_addTo]
      rintro (hk | rfl)
      · exact h.1 hk
      · exact h0 rfl

lemma keysNodup_foldl_all {α : Type} (fileName : String) (rs : List (String × α))
    (statusOk : α → Bool) (lc : List (String × List (String × α)))
    (h : keysNodup lc) :
    keysNodup (rs.foldl (fun lc sr =>
      if statusOk sr.2 then addTo lc sr.1 (fileName, sr.2) else lc) lc) := by
  induction rs generalizing lc with
  | nil => exact h
  | cons sr rest ih =>
    rw [List.foldl_cons]
    by_cases hst : statusOk sr.2 = true
    · rw [if_pos hst]
      exact ih _ (keysNodup_addTo _ _ _ h)
    · rw [if_neg hst]
      exact ih _ h

lemma stepAgg_keysNodup (svc : String) (st : AggState) (item : String × ScanOutcome)
    (h : keysNodup st.liveCookies) : keysNodup (stepAgg svc st item).liveCookies := by
  rcases item with ⟨n, out⟩
  unfold stepAgg
  rcases out with m | rs | r <;> dsimp only
  · exact h
  · split_ifs <;> dsimp only <;>
      first
        | exact keysNodup_foldl_all n _ (fun a => a.res.status == "success") st.liveCookies h
        | exact keysNodup_addTo _ _ _ h
        | exact h
  · split_ifs <;> dsimp only <;>
      first
        | exact keysNodup_foldl_all n _ (fun a => a.res.status == "success") st.liveCookies h
        | exact keysNodup_addTo _ _ _ h
        | exact h

lemma aggregate_keysNodup (svc : String) (items : List (String × ScanOutcome)) :
    keysNodup (aggregate svc items).liveCookies := by
  suffices h : ∀ st : AggState, keysNodup st.liveCookies →
      keysNodup ((items.foldl (stepAgg svc) st)).liveCookies by
    exact h {} (by simp [keysNodup])
  intro st hst
  induction items generalizing st with
  | nil => exact hst
  | cons item rest ih =>
    rw [List.foldl_cons]
    exact ih _ (stepAgg_keysNodup svc st item hst)

lemma lookupList_of_mem {α : Type} (m : List (String × List α)) (hnd : keysNodup m)
    (s : String) (lst : List α) (hm : (s, lst) ∈ m) : lookupList m s = lst := by
  induction m with
  | nil => cases hm
  | cons kv rest ih =>
    rcases kv with ⟨k0, vs⟩
    unfold keysNodup at hnd
    simp only [List.map_cons, List.nodup_cons] at hnd
    rcases List.mem_cons.mp hm with heq | hmem
    · cases heq
      unfold lookupList
      rw [if_pos (by simp)]
    · unfold lookupList
      by_cases h0 : k0 = s
      · subst h0
        exact absurd (by
          have : k0 ∈ rest.map Prod.fst := List.mem_map.mpr ⟨(k0, lst), hmem, rfl⟩
          exact this) hnd.1
      · rw [if_neg (by simpa using h0)]
        exact ih hnd.2 hmem

lemma mem_of_lookupList {α : Type} (m : List (String × List α)) (s : String) (x : α)
    (h : x ∈ lookupList m s) : ∃ lst, (s, lst) ∈ m ∧ x ∈ lst := by
  induction m with
  | nil => cases h
  | cons kv rest ih =>
    rcases kv with ⟨k0, vs⟩
    unfold lookupList at h
    by_cases h0 : k0 = s
    · subst h0
      rw [if_pos (by simp)] at h
      exact ⟨vs, List.mem_cons_self _ _, h⟩
    · rw [if_neg (by simpa using h0)] at h
      obtain ⟨lst, h1, h2⟩ := ih h
      exact ⟨lst, List.mem_cons_of_mem _ h1, h2⟩

lemma mem_archiveEntries_all (m : List (String × List (String × ScanServiceResult)))
    (hnd : keysNodup m) (p c : String) :
    (p, c) ∈ archiveEntries "all" m ↔
      ∃ s x, x ∈ lookupList m s ∧ x.2.originalContent.getD "" ≠ "" ∧
        p = pyTitle (servicesGet s) ++ "_Live_Cookies/" ++ x.1 ∧
        c = x.2.originalContent.getD "" := by
  unfold archiveEntries
  rw [if_pos (by decide)]
  rw [List.mem_flatMap]
  constructor
  · rintro ⟨⟨s, lst⟩, hm, hin⟩
    obtain ⟨fr, hfr, hg⟩ := List.mem_filterMap.mp hin
    by_cases hne : (fr.2.originalContent.getD "" != "") = true
    · rw [if_pos hne] at hg
      cases hg
      refine ⟨s, fr, ?_, by simpa using hne, rfl, rfl⟩
      rw [lookupList_of_mem m hnd s lst hm]
      exact hfr
    · rw [if_neg hne] at hg
      cases hg
  · rintro ⟨s, x, hx, hne, rfl, rfl⟩
    obtain ⟨lst, h1, h2⟩ := mem_of_lookupList m s x hx
    refine ⟨(s, lst), h1, List.mem_filterMap.mpr ⟨x, h2, ?_⟩⟩
    rw [if_pos (by simpa using hne)]

lemma mem_archiveEntries_single (svc : String) (hsvc : ¬svc = "all")
    (m : List (String × List (String × ScanServiceResult))) (p c : String) :
    (p, c) ∈ archiveEntries svc m ↔
      ∃ x, x ∈ lookupList m svc ∧ x.2.originalContent.getD "" ≠ "" ∧
        p = pyTitle (servicesGet svc) ++ "_Live/" ++ x.1 ∧
        c = x.2.originalContent.getD "" := by
  unfold archiveEntries
  rw [if_neg (by simpa using hsvc)]
  rw [List.mem_filterMap]
  constructor
  · rintro ⟨fr, hfr, hg⟩
    by_cases hne : (fr.2.originalContent.getD "" != "") = true
    · rw [if_pos hne] at hg
      cases hg
      exact ⟨fr, hfr, by simpa using hne, rfl, rfl⟩
    · rw [if_neg hne] at hg
      cases hg
  · rintro ⟨x, hx, hne, rfl, rfl⟩
    refine ⟨x, hx, ?_⟩
    rw [if_pos (by simpa using hne)]


lemma parse_cookies_txt_empty : parse_cookies_txt "" = .ok [] := rfl

lemma content_ne_empty {content : String} {cookies : List Cookie}
    (h : parse_cookies_txt content = .ok cookies) (hne : cookies ≠ []) :
    content ≠ "" := by
  intro he
  subst he
  rw [parse_cookies_txt_empty] at h
  cases h
  exact hne rfl

lemma scanAll_entry_origin (re : ReOracle) (net : String → Trace)
    (cookies : List Cookie) (oc : Option String) (s : String) (r : ScanServiceResult)
    (h : (s, r) ∈ scanAllServices re net cookies oc) :
    r.originalContent =
      if (pyTruthy oc && r.res.status == "success") = true then oc else none := by
  obtain ⟨kv, hkv, hb⟩ := List.mem_filterMap.mp h
  unfold scanServiceEntry at hb
  by_cases hemp : (filter_cookies_by_domain cookies kv.2.domains).isEmpty = true
  · rw [if_pos hemp] at hb
    cases hb
  · rw [if_neg hemp] at hb
    rcases hfn : lookupTestFn kv.1 with _ | f
    · simp only [hfn] at hb
      cases hb
    · simp only [hfn] at hb
      cases hb
      rfl

lemma allResultsOf_mem (out : ScanOutcome) (s : String) (r : ScanServiceResult)
    (h : (s, r) ∈ allResultsOf out) : ∃ rs, out = .all rs ∧ (s, r) ∈ rs := by
  cases out with
  | err m => cases h
  | all rs => exact ⟨rs, rfl, h⟩
  | single r' => cases h

lemma scan_all_eq (re : ReOracle) (net : String → Trace) (content : String)
    (oc : Option String) (rs : List (String × ScanServiceResult))
    (h : scan_cookie_content re net content "all" oc = .all rs) :
    ∃ cookies, parse_cookies_txt content = .ok cookies ∧ cookies ≠ [] ∧
      rs = scanAllServices re net cookies oc := by
  unfold scan_cookie_content at h
  rcases hp : parse_cookies_txt content with e | cookies <;> simp only [hp] at h
  · cases h
  · by_cases h1 : cookies.isEmpty = true
    · rw [if_pos h1] at h
      cases h
    · rw [if_neg h1, if_pos (show ("all" == "all") = true from rfl)] at h
      cases h
      refine ⟨cookies, rfl, ?_, rfl⟩
      intro hnil
      subst hnil
      exact h1 rfl

lemma scan_single_origin (re : ReOracle) (net : String → Trace) (content svc : String)
    (oc : Option String) (r : ScanServiceResult)
    (h : scan_cookie_content re net content svc oc = .single r) :
    (∃ cookies, parse_cookies_txt content = .ok cookies ∧ cookies ≠ []) ∧
    r.originalContent =
      if (pyTruthy oc && r.res.status == "success") = true then oc else none := by
  unfold scan_cookie_content at h
  rcases hp : parse_cookies_txt content with e | cookies <;> simp only [hp] at h
  · cases h
  · by_cases h1 : cookies.isEmpty = true
    · rw [if_pos h1] at h
      cases h
    · rw [if_neg h1] at h
      by_cases h2 : (svc == "all") = true
      · rw [if_pos h2] at h
        cases h
      · rw [if_neg h2] at h
        rcases ht : lookupTarget svc with _ | target
        · simp only [ht] at h
          cases h
        · simp only [ht] at h
          by_cases h3 : (filter_cookies_by_domain cookies target.domains).isEmpty = true
          · rw [if_pos h3] at h
            cases h
          · rw [if_neg h3] at h
            rcases hf : lookupTestFn svc with _ | f
            · simp only [hf] at h
              cases h
            · simp only [hf] at h
              cases h
              refine ⟨⟨cookies, rfl, fun hnil => ?_⟩, rfl⟩
              subst hnil
              exact h1 rfl

/-- C3: after a zip scan, the repackaged archive contains exactly the
original contents of the input files whose result for a service is
`'success'` (LIVE), under the per-service folder; files with any other
status never appear.  `completed` is any completion order of the submitted
jobs. -/
theorem archive_c3 (re : ReOracle) (net : String → String → Trace) (svc : String)
    (entries : List ZipEntry) (completed : List (String × ScanOutcome))
    (hperm : completed.Perm (submittedJobs re net svc entries))
    (path content : String) :
    ((path, content) ∈ archiveEntries svc (aggregate svc completed).liveCookies) ↔
    ∃ n c, (n, c) ∈ filesToProcess entries ∧
      ((svc = "all" ∧ ∃ s r,
          (s, r) ∈ allResultsOf (scan_cookie_content re (net n) c svc (some c)) ∧
          r.res.status = "success" ∧
          path = pyTitle (servicesGet s) ++ "_Live_Cookies/" ++ n ∧ content = c) ∨
       (¬svc = "all" ∧ ∃ r,
          scan_cookie_content re (net n) c svc (some c) = .single r ∧
          r.res.status = "success" ∧
          path = pyTitle (servicesGet svc) ++ "_Live/" ++ n ∧ content = c)) := by
  have hlookup : ∀ s x, x ∈ lookupList (aggregate svc completed).liveCookies s ↔
      ∃ nc ∈ filesToProcess entries,
        liveContrib svc s x (nc.1, scan_cookie_content re (net nc.1) nc.2 svc (some nc.2)) := by
    intro s x
    rw [aggregate_live_mem]
    constructor
    · rintro ⟨item, hitem, hc⟩
      have hitem2 := hperm.mem_iff.mp hitem
      obtain ⟨nc, hnc, heq⟩ := List.mem_map.mp hitem2
      refine ⟨nc, hnc, ?_⟩
      have heq2 : item = (nc.1, scan_cookie_content re (net nc.1) nc.2 svc (some nc.2)) :=
        heq.symm
      rw [heq2] at hc
      exact hc
    · rintro ⟨nc, hnc, hc⟩
      refine ⟨(nc.1, scan_cookie_content re (net nc.1) nc.2 svc (some nc.2)),
        hperm.mem_iff.mpr (List.mem_map.mpr ⟨nc, hnc, rfl⟩), hc⟩
  by_cases hsvc : svc = "all"
  · subst hsvc
    rw [mem_archiveEntries_all _ (aggregate_keysNodup _ _)]
    constructor
    · rintro ⟨s, x, hx, hne, rfl, rfl⟩
      obtain ⟨nc, hnc, hcontrib⟩ := (hlookup s x).mp hx
      rcases hcontrib with ⟨_, sr, hsr, hsucc, rfl, rfl⟩ | ⟨habs, _⟩
      · obtain ⟨rs, hout, hmem⟩ := allResultsOf_mem _ _ _ hsr
        obtain ⟨cookies, hparse, hcne, hrs⟩ := scan_all_eq _ _ _ _ _ hout
        have hcne' : nc.2 ≠ "" := content_ne_empty hparse hcne
        have horig := scanAll_entry_origin _ _ _ _ _ _ (hrs ▸ hmem)
        have hcond : (pyTruthy (some nc.2) && (sr.2.res.status == "success")) = true := by
          rw [Bool.and_eq_true]
          exact ⟨by simpa [pyTruthy] using hcne', by simpa using hsucc⟩
        rw [hcond, if_pos rfl] at horig
        refine ⟨nc.1, nc.2, hnc, Or.inl ⟨rfl, sr.1, sr.2, ?_, hsucc, ?_, ?_⟩⟩
        · show (sr.1, sr.2) ∈ allResultsOf (scan_cookie_content re (net nc.1) nc.2 "all" (some nc.2))
          have hra : allResultsOf (scan_cookie_content re (net nc.1) nc.2 "all" (some nc.2)) = rs :=
            congrArg allResultsOf hout
          rw [hra]
          exact hmem
        · rfl
        · show sr.2.originalContent.getD "" = nc.2
          rw [horig]
          rfl
      · exact absurd rfl habs
    · rintro ⟨n, c, hnc, ⟨_, s, r, hsr, hsucc, rfl, rfl⟩ | ⟨habs, _⟩⟩
      · obtain ⟨rs, hout, hmem⟩ := allResultsOf_mem _ _ _ hsr
        obtain ⟨cookies, hparse, hcne, hrs⟩ := scan_all_eq _ _ _ _ _ hout
        have hcne' : content ≠ "" := content_ne_empty hparse hcne
        have horig := scanAll_entry_origin _ _ _ _ _ _ (hrs ▸ hmem)
        have hcond : (pyTruthy (some content) && (r.res.status == "success")) = true := by
          rw [Bool.and_eq_true]
          exact ⟨by simpa [pyTruthy] using hcne', by simpa using hsucc⟩
        rw [hcond, if_pos rfl] at horig
        refine ⟨s, (n, r), ?_, ?_, ?_, ?_⟩
        · refine (hlookup s (n, r)).mpr ⟨(n, content), hnc,
            Or.inl ⟨rfl, (s, r), ?_, hsucc, rfl, rfl⟩⟩
          show (s, r) ∈ allResultsOf (scan_cookie_content re (net n) content "all" (some content))
          rw [hout]
          exact hmem
        · show r.originalContent.getD "" ≠ ""
          rw [horig]
          simpa using hcne'
        · rfl
        · show content = r.originalContent.getD ""
          rw [horig]
          rfl
      · exact absurd rfl habs
  · rw [mem_archiveEntries_single svc hsvc _]
    constructor
    · rintro ⟨x, hx, hne, rfl, rfl⟩
      obtain ⟨nc, hnc, hcontrib⟩ := (hlookup svc x).mp hx
      rcases hcontrib with ⟨habs, _⟩ | ⟨_, _, r, hout, hsucc, rfl⟩
      · exact absurd habs hsvc
      · obtain ⟨⟨cookies, hparse, hcne⟩, horig⟩ := scan_single_origin _ _ _ _ _ _ hout
        have hcne' : nc.2 ≠ "" := content_ne_empty hparse hcne
        have hcond : (pyTruthy (some nc.2) && (r.res.status == "success")) = true := by
          rw [Bool.and_eq_true]
          exact ⟨by simpa [pyTruthy] using hcne', by simpa using hsucc⟩
        rw [hcond, if_pos rfl] at horig
        refine ⟨nc.1, nc.2, hnc, Or.inr ⟨hsvc, r, hout, hsucc, ?_, ?_⟩⟩
        · rfl
        · show r.originalContent.getD "" = nc.2
          rw [horig]
          rfl
    · rintro ⟨n, c, hnc, ⟨habs, _⟩ | ⟨_, r, hout, hsucc, rfl, rfl⟩⟩
      · exact absurd habs hsvc
      · obtain ⟨⟨cookies, hparse, hcne⟩, horig⟩ := scan_single_origin _ _ _ _ _ _ hout
        have hcne' : content ≠ "" := content_ne_empty hparse hcne
        have hcond : (pyTruthy (some content) && (r.res.status == "success")) = true := by
          rw [Bool.and_eq_true]
          exact ⟨by simpa [pyTruthy] using hcne', by simpa using hsucc⟩
        rw [hcond, if_pos rfl] at horig
        refine ⟨(n, r), ?_, ?_, ?_, ?_⟩
        · exact (hlookup svc (n, r)).mpr
            ⟨(n, content), hnc, Or.inr ⟨hsvc, rfl, r, hout, hsucc, rfl⟩⟩
        · show r.originalContent.getD "" ≠ ""
          rw [horig]
          simpa using hcne'
        · rfl
        · show content = r.originalContent.getD ""
          rw [horig]
          rfl

theorem archive_c3_witness :
    ("Netflix_Live/a.txt", ".netflix.com\tTRUE\t/\tTRUE\t0\tsid\tabc") ∈
      archiveEntries "netflix"
        (aggregate "netflix"
          (submittedJobs trivialRe
            (fun _ _ => [NetEvent.resp ⟨"https://www.netflix.com/account", 200, "", ""⟩])
            "netflix" [⟨"a.txt", ".netflix.com\tTRUE\t/\tTRUE\t0\tsid\tabc"⟩])).liveCookies :=
  (archive_c3 trivialRe
      (fun _ _ => [NetEvent.resp ⟨"https://www.netflix.com/account", 200, "", ""⟩])
      "netflix" [⟨"a.txt", ".netflix.com\tTRUE\t/\tTRUE\t0\tsid\tabc"⟩] _
      (List.Perm.refl _) "Netflix_Live/a.txt" ".netflix.com\tTRUE\t/\tTRUE\t0\tsid\tabc").mpr
    ⟨"a.txt", ".netflix.com\tTRUE\t/\tTRUE\t0\tsid\tabc", by decide,
     Or.inr ⟨by decide, _, rfl, rfl, by decide, rfl⟩⟩

/-! ## C10: properties of `clean_filename` -/

lemma data_mk (l : List Char) : (String.mk l).data = l := rfl

lemma collapseUU_cons (a : Char) (rest : List Char)
    (h : ∀ rest2, a = '_' → rest = '_' :: rest2 → False) :
    collapseUU (a :: rest) = a :: collapseUU rest := by
  rw [collapseUU.eq_def]
  split
  · rename_i rest2 heq
    injection heq with h1 h2
    exact absurd (h rest2 h1 h2) (fun f => f)
  · rename_i c2 rest2 hg heq
    injection heq with h1 h2
    subst h1
    subst h2
    rfl
  · rename_i heq
    cases heq

lemma mem_collapseUU (l : List Char) : ∀ c ∈ collapseUU l, c ∈ l := by
  induction l using collapseUU.induct with
  | case1 rest ih =>
    intro c h
    rw [show collapseUU ('_' :: '_' :: rest) = '_' :: collapseUU rest from rfl] at h
    rcases List.mem_cons.mp h with h | h
    · exact h ▸ List.mem_cons_self _ _
    · exact List.mem_cons_of_mem _ (List.mem_cons_of_mem _ (ih c h))
  | case2 a rest hne ih =>
    intro c h
    rw [collapseUU_cons a rest hne] at h
    rcases List.mem_cons.mp h with h | h
    · exact h ▸ List.mem_cons_self _ _
    · exact List.mem_cons_of_mem _ (ih c h)
  | case3 =>
    intro c h
    rw [show collapseUU [] = [] from rfl] at h
    cases h

lemma collapseUU_id (l : List Char) (hl : ∀ c ∈ l, ¬c = '_') : collapseUU l = l := by
  induction l using collapseUU.induct with
  | case1 rest ih => exact absurd rfl (hl '_' (List.mem_cons_self _ _))
  | case2 a rest hne ih =>
    rw [collapseUU_cons a rest hne, ih (fun c hc => hl c (List.mem_cons_of_mem _ hc))]
  | case3 => rfl

lemma mem_stripEnds (p : Char → Bool) (l : List Char) (c : Char)
    (h : c ∈ stripEnds p l) : c ∈ l := by
  unfold stripEnds at h
  rw [List.mem_reverse] at h
  have h2 := (List.dropWhile_sublist _).subset h
  rw [List.mem_reverse] at h2
  exact (List.dropWhile_sublist _).subset h2

lemma mem_stripRight (p : Char → Bool) (l : List Char) (c : Char)
    (h : c ∈ stripRight p l) : c ∈ l := by
  unfold stripRight at h
  rw [List.mem_reverse] at h
  have h2 := (List.dropWhile_sublist _).subset h
  rw [List.mem_reverse] at h2
  exact h2

lemma length_stripRight_le (p : Char → Bool) (l : List Char) :
    (stripRight p l).length ≤ l.length := by
  unfold stripRight
  rw [List.length_reverse]
  exact le_trans (List.dropWhile_sublist _).length_le (le_of_eq (List.length_reverse _))

lemma stripEnds_eq_nil_iff (p : Char → Bool) (l : List Char) :
    stripEnds p l = [] ↔ ∀ c ∈ l, p c = true := by
  unfold stripEnds
  rw [List.reverse_eq_nil_iff, List.dropWhile_eq_nil_iff]
  constructor
  · intro h c hc
    rw [← @List.takeWhile_append_dropWhile _ p l] at hc
    rcases List.mem_append.mp hc with h1 | h1
    · exact List.mem_takeWhile_imp h1
    · exact h c (List.mem_reverse.mpr h1)
  · intro h c hc
    exact h c ((List.dropWhile_sublist _).subset (List.mem_reverse.mp hc))

lemma dropWhile_eq_self_of_head (p : Char → Bool) (l : List Char)
    (h : ∀ c, l.head? = some c → p c = false) : l.dropWhile p = l := by
  cases l with
  | nil => rfl
  | cons a rest =>
    rw [List.dropWhile_cons, if_neg]
    simp [h a rfl]

lemma stripEnds_id (p : Char → Bool) (l : List Char)
    (hh : ∀ c, l.head? = some c → p c = false)
    (hl : ∀ c, l.getLast? = some c → p c = false) : stripEnds p l = l := by
  unfold stripEnds
  rw [dropWhile_eq_self_of_head p l hh]
  rw [dropWhile_eq_self_of_head p l.reverse
    (fun c hc => hl c (by rwa [List.head?_reverse] at hc))]
  exact List.reverse_reverse l

lemma stripRight_append (p : Char → Bool) (a b : List Char) (c : Char)
    (ha : a.getLast? = some c) (hc : p c = false) :
    stripRight p (a ++ b) = a ++ stripRight p b := by
  unfold stripRight
  rw [List.reverse_append, List.dropWhile_append]
  by_cases hb : (b.reverse.dropWhile p).isEmpty = true
  · rw [if_pos hb]
    rw [dropWhile_eq_self_of_head p a.reverse (fun d hd => by
      rw [List.head?_reverse, ha] at hd
      injection hd with h1
      rwa [h1] at hc)]
    rw [List.reverse_reverse]
    have hb2 : b.reverse.dropWhile p = [] := by simpa using hb
    rw [hb2]
    simp
  · rw [if_neg hb]
    rw [List.reverse_append, List.reverse_reverse]

lemma replaceChar_id (a b : Char) (l : List Char) (h : ∀ c ∈ l, ¬c = a) :
    replaceChar a b l = l := by
  unfold replaceChar
  rw [List.map_congr_left (fun c hc => if_neg (h c hc)), List.map_id']

lemma foldl_replaceChar_id :
    ∀ (chars : List Char) (l : List Char), (∀ c ∈ l, ¬c ∈ chars) →
      chars.foldl (fun acc ch => replaceChar ch '_' acc) l = l
  | [], _, _ => rfl
  | ch :: chs, l, h => by
    rw [List.foldl_cons,
      replaceChar_id ch '_' l
        (fun c hc hce => h c hc (by rw [hce]; exact List.mem_cons_self _ _))]
    exact foldl_replaceChar_id chs l (fun c hc hm => h c hc (List.mem_cons_of_mem _ hm))

lemma replaceInvalid_id (l : List Char)
    (h : ∀ c ∈ l, invalidFilenameChars.contains c = false) : replaceInvalid l = l :=
  foldl_replaceChar_id invalidFilenameChars l (fun c hc => by simpa using h c hc)

lemma replaceCtrl_id (l : List Char) (h : ∀ c ∈ l, isCtrlChar c = false) :
    replaceCtrl l = l := by
  unfold replaceCtrl
  rw [List.map_congr_left (fun c hc => if_neg (by simp [h c hc])), List.map_id']

lemma mem_foldl_replaceChar (chars : List Char) :
    ∀ (l : List Char) (c : Char),
      c ∈ chars.foldl (fun acc ch => replaceChar ch '_' acc) l →
      c = '_' ∨ (c ∈ l ∧ ¬c ∈ chars) := by
  induction chars with
  | nil => exact fun l c h => Or.inr ⟨h, List.not_mem_nil c⟩
  | cons ch chs ih =>
    intro l c h
    rw [List.foldl_cons] at h
    rcases ih (replaceChar ch '_' l) c h with h1 | ⟨h1, h2⟩
    · exact Or.inl h1
    · unfold replaceChar at h1
      obtain ⟨d, hd, hde⟩ := List.mem_map.mp h1
      by_cases hdch : d = ch
      · rw [if_pos hdch] at hde
        exact Or.inl hde.symm
      · rw [if_neg hdch] at hde
        subst hde
        refine Or.inr ⟨hd, fun hm => ?_⟩
        rcases List.mem_cons.mp hm with he | hm2
        · exact hdch he
        · exact h2 hm2

lemma replaceInvalid_chars (l : List Char) (c : Char) (h : c ∈ replaceInvalid l) :
    invalidFilenameChars.contains c = false := by
  rcases mem_foldl_replaceChar invalidFilenameChars l c h with h1 | ⟨_, h2⟩
  · subst h1
    decide
  · simpa using h2

lemma replaceCtrl_chars (l : List Char) (c : Char) (h : c ∈ replaceCtrl l) :
    isCtrlChar c = false ∧ (c = '_' ∨ c ∈ l) := by
  unfold replaceCtrl at h
  obtain ⟨d, hd, hde⟩ := List.mem_map.mp h
  by_cases hctl : isCtrlChar d = true
  · rw [if_pos hctl] at hde
    exact ⟨hde ▸ (by decide), Or.inl hde.symm⟩
  · rw [if_neg hctl] at hde
    subst hde
    exact ⟨by simpa using hctl, Or.inr hd⟩

lemma pipeline_chars (t : String) (c : Char)
    (h : c ∈ replaceChar ' ' '_' (replaceCtrl (replaceInvalid t.data))) :
    invalidFilenameChars.contains c = false ∧ isCtrlChar c = false ∧ ¬c = ' ' := by
  unfold replaceChar at h
  obtain ⟨d, hd, hde⟩ := List.mem_map.mp h
  by_cases hsp : d = ' '
  · rw [if_pos hsp] at hde
    subst hde
    exact ⟨by decide, by decide, by decide⟩
  · rw [if_neg hsp] at hde
    subst hde
    obtain ⟨hctl, hd2⟩ := replaceCtrl_chars _ d hd
    refine ⟨?_, hctl, hsp⟩
    rcases hd2 with h2 | h2
    · subst h2
      decide
    · exact replaceInvalid_chars _ d h2

lemma base_chars (t : String) (c : Char)
    (h : c ∈ stripEnds (fun c => c == '_' || c == '.')
        (collapseUU (replaceChar ' ' '_' (replaceCtrl (replaceInvalid t.data))))) :
    invalidFilenameChars.contains c = false ∧ isCtrlChar c = false ∧ ¬c = ' ' :=
  pipeline_chars t c (mem_collapseUU _ c (mem_stripEnds _ _ c h))

lemma file_chars : ∀ c ∈ ("file_" : String).data,
    invalidFilenameChars.contains c = false ∧ isCtrlChar c = false ∧ ¬c = ' ' := by
  decide

lemma shape_tail (Y : String)
    (hY : ∀ c ∈ Y.data,
      invalidFilenameChars.contains c = false ∧ isCtrlChar c = false ∧ ¬c = ' ') :
    (if String.mk (stripRight (fun c => c == '.' || c == ' ')
          (if Y.length > 200 then String.mk (Y.data.take 200) else Y).data) = ""
      then "unnamed"
      else String.mk (stripRight (fun c => c == '.' || c == ' ')
          (if Y.length > 200 then String.mk (Y.data.take 200) else Y).data)) = "unnamed" ∨
    ((if String.mk (stripRight (fun c => c == '.' || c == ' ')
          (if Y.length > 200 then String.mk (Y.data.take 200) else Y).data) = ""
      then "unnamed"
      else String.mk (stripRight (fun c => c == '.' || c == ' ')
          (if Y.length > 200 then String.mk (Y.data.take 200) else Y).data)) ≠ "" ∧
     ∃ l : List Char,
      (if String.mk (stripRight (fun c => c == '.' || c == ' ')
          (if Y.length > 200 then String.mk (Y.data.take 200) else Y).data) = ""
        then "unnamed"
        else String.mk (stripRight (fun c => c == '.' || c == ' ')
          (if Y.length > 200 then String.mk (Y.data.take 200) else Y).data)) =
        String.mk (stripRight (fun c => c == '.' || c == ' ') l) ∧
      l.length ≤ 200 ∧
      ∀ c ∈ l,
        invalidFilenameChars.contains c = false ∧ isCtrlChar c = false ∧ ¬c = ' ') := by
  by_cases hlen : Y.length > 200
  · rw [if_pos hlen]
    by_cases hfin :
        String.mk (stripRight (fun c => c == '.' || c == ' ')
          (String.mk (Y.data.take 200)).data) = ""
    · rw [if_pos hfin]
      exact Or.inl rfl
    · rw [if_neg hfin]
      refine Or.inr ⟨hfin, Y.data.take 200, rfl, ?_, ?_⟩
      · rw [List.length_take]
        exact min_le_left _ _
      · intro c hc
        exact hY c (List.take_subset _ _ hc)
  · rw [if_neg hlen]
    by_cases hfin : String.mk (stripRight (fun c => c == '.' || c == ' ') Y.data) = ""
    · rw [if_pos hfin]
      exact Or.inl rfl
    · rw [if_neg hfin]
      exact Or.inr ⟨hfin, Y.data, rfl, Nat.le_of_not_lt hlen, hY⟩

set_option maxHeartbeats 1000000 in
lemma clean_filename_shape (t : String) :
    clean_filename t = "unnamed" ∨
    (clean_filename t ≠ "" ∧ ∃ l : List Char,
      clean_filename t = String.mk (stripRight (fun c => c == '.' || c == ' ') l) ∧
      l.length ≤ 200 ∧
      ∀ c ∈ l,
        invalidFilenameChars.contains c = false ∧ isCtrlChar c = false ∧ ¬c = ' ') := by
  by_cases h0 : t = "" ∨ pyStrip t = ""
  · left
    unfold clean_filename
    rw [if_pos h0]
  · simp only [clean_filename]
    rw [if_neg h0]
    apply shape_tail
    split_ifs with h1 h2 h3
    · decide
    · intro c hc
      rw [String.data_append] at hc
      rcases List.mem_append.mp hc with h | h
      · exact file_chars c h
      · exact base_chars t c h
    · decide
    · intro c hc
      rw [data_mk] at hc
      exact base_chars t c hc

lemma pyStartsWith_append2 (s t : String) : pyStartsWith (s ++ t) s = true := by
  unfold pyStartsWith
  rw [String.data_append]
  exact List.isPrefixOf_iff_prefix.mpr ⟨t.data, rfl⟩

lemma pyStartsWith_mk_append (z : List Char) :
    pyStartsWith (String.mk ("file_".data ++ z)) "file_" = true :=
  pyStartsWith_append2 "file_" (String.mk z)

lemma head_mem_of_eq (l : List Char) (c : Char) (hc : l.head? = some c) : c ∈ l := by
  cases l with
  | nil => cases hc
  | cons a r =>
    injection hc with h1
    rw [h1]
    exact List.mem_cons_self _ _

lemma getLast_mem_of_eq (l : List Char) (c : Char) (hc : l.getLast? = some c) : c ∈ l := by
  have h2 := head_mem_of_eq l.reverse c (by rwa [List.head?_reverse])
  rwa [List.mem_reverse] at h2

lemma clean_filename_reserved (t : String)
    (hclean : ∀ c ∈ t.data, invalidFilenameChars.contains c = false ∧
      isCtrlChar c = false ∧ ¬c = ' ' ∧ ¬c = '_')
    (hh : ¬t.data.head? = some '.') (hl : ¬t.data.getLast? = some '.')
    (hs : pyStrip t ≠ "")
    (hres : windowsReserved.contains (pyUpper ((pySplit t ".").headD "")) = true) :
    pyStartsWith (clean_filename t) "file_" = true := by
  have h0 : ¬(t = "" ∨ pyStrip t = "") := by
    rintro (h | h)
    · exact hs (by rw [h]; rfl)
    · exact hs h
  have hid1 : replaceInvalid t.data = t.data :=
    replaceInvalid_id _ (fun c hc => (hclean c hc).1)
  have hid2 : replaceCtrl t.data = t.data :=
    replaceCtrl_id _ (fun c hc => (hclean c hc).2.1)
  have hid3 : replaceChar ' ' '_' t.data = t.data :=
    replaceChar_id _ _ _ (fun c hc => (hclean c hc).2.2.1)
  have hid4 : collapseUU t.data = t.data :=
    collapseUU_id _ (fun c hc => (hclean c hc).2.2.2)
  have hid5 : stripEnds (fun c => c == '_' || c == '.') t.data = t.data := by
    apply stripEnds_id
    · intro c hc
      have hcm : c ∈ t.data := head_mem_of_eq _ _ hc
      have h1 : ¬c = '_' := (hclean c hcm).2.2.2
      have h2 : ¬c = '.' := fun e => hh (e ▸ hc)
      rw [Bool.or_eq_false_iff]
      exact ⟨beq_eq_false_iff_ne.mpr h1, beq_eq_false_iff_ne.mpr h2⟩
    · intro c hc
      have hcm : c ∈ t.data := getLast_mem_of_eq _ _ hc
      have h1 : ¬c = '_' := (hclean c hcm).2.2.2
      have h2 : ¬c = '.' := fun e => hl (e ▸ hc)
      rw [Bool.or_eq_false_iff]
      exact ⟨beq_eq_false_iff_ne.mpr h1, beq_eq_false_iff_ne.mpr h2⟩
  simp only [clean_filename]
  rw [if_neg h0, hid1, hid2, hid3, hid4, hid5]
  rw [show String.mk t.data = t from rfl]
  rw [if_pos hres]
  have hdots : ¬(pyStrip (String.mk (("file_" ++ t).data.filter
      (fun c => !(c == '.')))) = "") := by
    intro he
    have he2 : stripEnds pyIsSpace (("file_" ++ t).data.filter
        (fun c => !(c == '.'))) = [] :=
      congrArg String.data he
    have hall := (stripEnds_eq_nil_iff _ _).mp he2
    have hfmem : 'f' ∈ ("file_" ++ t).data.filter (fun c => !(c == '.')) := by
      rw [List.mem_filter]
      refine ⟨?_, by decide⟩
      rw [String.data_append]
      exact List.mem_append.mpr (Or.inl (by decide))
    exact absurd (hall 'f' hfmem) (by decide)
  rw [if_neg hdots]
  by_cases hlen : ("file_" ++ t).length > 200
  · rw [if_pos hlen]
    have htake : ("file_" ++ t).data.take 200 =
        "file_".data ++ t.data.take (200 - "file_".data.length) := by
      rw [String.data_append, List.take_append_eq_append_take,
        List.take_of_length_le (by decide)]
    rw [data_mk, htake,
      stripRight_append (fun c => c == '.' || c == ' ') "file_".data _ '_'
        (by decide) (by decide)]
    rw [if_neg (fun he => absurd (List.append_eq_nil.mp (congrArg String.data he)).1
      (by decide))]
    exact pyStartsWith_mk_append _
  · rw [if_neg hlen]
    rw [String.data_append,
      stripRight_append (fun c => c == '.' || c == ' ') "file_".data _ '_'
        (by decide) (by decide)]
    rw [if_neg (fun he => absurd (List.append_eq_nil.mp (congrArg String.data he)).1
      (by decide))]
    exact pyStartsWith_mk_append _

/-- C10: for every input, `clean_filename` returns a non-empty string of length
at most 200 containing none of the replaced invalid characters
(`< > : " / \ | ? *`, NUL), no control character of the class
`[\x00-\x1f\x7f-\x9f]`, and no space; an empty or whitespace-only input yields
`"unnamed"`; and an input free of replaced characters and underscores, not
starting or ending with a dot, whose first dot-separated segment uppercases to
a Windows reserved device name, gets the `"file_"` prefix. -/
theorem clean_filename_c10 (t : String) :
    clean_filename t ≠ "" ∧
    (clean_filename t).length ≤ 200 ∧
    (∀ c ∈ (clean_filename t).data,
      invalidFilenameChars.contains c = false ∧ isCtrlChar c = false ∧ ¬c = ' ') ∧
    ((t = "" ∨ pyStrip t = "") → clean_filename t = "unnamed") ∧
    ((∀ c ∈ t.data, invalidFilenameChars.contains c = false ∧ isCtrlChar c = false ∧
        ¬c = ' ' ∧ ¬c = '_') →
      ¬t.data.head? = some '.' → ¬t.data.getLast? = some '.' → pyStrip t ≠ "" →
      windowsReserved.contains (pyUpper ((pySplit t ".").headD "")) = true →
      pyStartsWith (clean_filename t) "file_" = true) := by
  refine ⟨?_, ?_, ?_, ?_, clean_filename_reserved t⟩
  · rcases clean_filename_shape t with h | h
    · rw [h]
      decide
    · exact h.1
  · rcases clean_filename_shape t with h | ⟨_, l, he, hlen, _⟩
    · rw [h]
      decide
    · rw [he]
      exact le_trans (length_stripRight_le _ _) hlen
  · rcases clean_filename_shape t with h | ⟨_, l, he, _, hchars⟩
    · rw [h]
      decide
    · rw [he]
      intro c hc
      rw [data_mk] at hc
      exact hchars c (mem_stripRight _ _ _ hc)
  · intro h
    unfold clean_filename
    rw [if_pos h]

theorem clean_filename_c10_witness :
    pyStartsWith (clean_filename "con.txt") "file_" = true ∧
    clean_filename " " = "unnamed" :=
  ⟨(clean_filename_c10 "con.txt").2.2.2.2 (by decide) (by decide) (by decide)
      (by decide) (by decide),
   (clean_filename_c10 " ").2.2.2.1 (Or.inr (by decide))⟩

end Bottele
